import Mathlib

/-!
# Verification of the grid-search filter-selection engine (`src/models/model.py`)

Shallow embedding of the repository's grid-search engine.  pandas `Series`
values are modelled as `Option ℚ` (with `none` playing the role of `NaN`),
machine floats as exact rationals.  The feature pipeline
(`src/models/dataset.py`) is not part of the provided sources; its two
functions are modelled from the spec and marked as such in their doc comments.
-/

namespace SMPR

/-- A pandas cell: `none` models `NaN`. -/
abbrev Val := Option ℚ

/-- A pandas `Series`: one `(index label, value)` entry per row. -/
abbrev Series := List (ℤ × Val)

/-- A row of a pandas `DataFrame`: index label plus the list of cells. -/
abbrev Row := ℤ × List Val

/-- A pandas `DataFrame` with rows in positional order. -/
abbrev Table := List Row

/-- The index (list of labels) of a series. -/
def seriesLabels (s : Series) : List ℤ := s.map Prod.fst

/-- `Series.dropna`: keep the rows whose value is defined. -/
def seriesDropna (s : Series) : Series := s.filter fun e => e.2.isSome

/-- A `DataFrame` row survives `dropna` iff every cell is defined. -/
def rowDefined (r : Row) : Bool := r.2.all Option.isSome

/-- `DataFrame.dropna`: keep the rows with no undefined cell. -/
def dropna (x : Table) : Table := x.filter rowDefined

/-- `MovingAverageGridParams = namedtuple("MovingAverageGridParams", ["q", "moving_average", "p"])` -/
structure MovingAverageGridParams where
  q : ℕ
  moving_average : ℕ
  p : ℕ
deriving DecidableEq, Repr

/-- `ExpMovingAverageGridParams = namedtuple("ExpMovingAverageGridParams", ["q", "alpha", "p"])` -/
structure ExpMovingAverageGridParams where
  q : ℕ
  alpha : ℚ
  p : ℕ
deriving DecidableEq, Repr

/-- `KalmanGridParams = namedtuple("KalmanGridParams", ["q", "p"])` -/
structure KalmanGridParams where
  q : ℕ
  p : ℕ
deriving DecidableEq, Repr

/-- `FinalMetrics = namedtuple("FinalMetrics", ["mae", "mse", "r2"])` -/
structure FinalMetrics where
  mae : ℚ
  mse : ℚ
  r2 : ℚ
deriving DecidableEq, Repr

/-- Duck-typed access to the `p` and `q` fields shared by the three
`GridParams` named tuples (the Python code relies on attribute access). -/
class GridParamsAttrs (α : Type) where
  p : α → ℕ
  q : α → ℕ

instance : GridParamsAttrs MovingAverageGridParams :=
  ⟨MovingAverageGridParams.p, MovingAverageGridParams.q⟩

instance : GridParamsAttrs ExpMovingAverageGridParams :=
  ⟨ExpMovingAverageGridParams.p, ExpMovingAverageGridParams.q⟩

instance : GridParamsAttrs KalmanGridParams :=
  ⟨KalmanGridParams.p, KalmanGridParams.q⟩

/-- The Python exceptions the engine can surface. -/
inductive PyError where
  /-- fitting / predicting with zero samples -/
  | emptyData : PyError
  /-- any other estimator failure during fit or predict -/
  | fitFailure : PyError
  /-- `sklearn.metrics` failure (mismatched or empty inputs) -/
  | metricFailure : PyError
  /-- `getattr(metrics, metric_name)` on an unknown field -/
  | attributeError (field : String) : PyError
  /-- `sorted_results[0]` on an empty list -/
  | indexError : PyError
  /-- ordering two objects (such as bound methods) that do not support `<` -/
  | typeError : PyError
deriving DecidableEq, Repr

/-! ## Filter library -/

/-- Arithmetic mean of a list of rationals (`0` on the empty list). -/
def listMean (l : List ℚ) : ℚ := l.sum / l.length

/-- The window that pandas `rolling(window=w).mean()` inspects at position `i`:
the up-to-`w` values ending at position `i`. -/
def rollingWindow (vals : List Val) (w i : ℕ) : List Val :=
  ((vals.take (i + 1)).drop (i + 1 - w))

/-- Value of `rolling(window=w).mean()` at position `i`: defined once `w ≥ 1`
full samples are available and every sample in the window is defined. -/
def windowMean (vals : List Val) (w i : ℕ) : Val :=
  if 1 ≤ w ∧ w ≤ i + 1 ∧ (rollingWindow vals w i).all Option.isSome then
    some (((rollingWindow vals w i).reduceOption).sum / w)
  else
    none

/-- `get_moving_average_filter`: `variable.rolling(window=grid_params.moving_average).mean()`. -/
def get_moving_average_filter (variab : Series) (grid_params : MovingAverageGridParams) :
    Series :=
  variab.mapIdx fun i e =>
    (e.1, windowMean (variab.map Prod.snd) grid_params.moving_average i)

/-- Numerator of the (adjusted) exponentially weighted mean at position `i`:
`Σ_{k ≤ i, x k defined} (1-α)^(i-k) · x k`. -/
def ewmNum (vals : List Val) (alpha : ℚ) (i : ℕ) : ℚ :=
  ((List.range (i + 1)).map fun k =>
    match vals.getD k none with
    | some v => (1 - alpha) ^ (i - k) * v
    | none => 0).sum

/-- Denominator of the (adjusted) exponentially weighted mean at position `i`. -/
def ewmDen (vals : List Val) (alpha : ℚ) (i : ℕ) : ℚ :=
  ((List.range (i + 1)).map fun k =>
    match vals.getD k none with
    | some _ => (1 - alpha) ^ (i - k)
    | none => 0).sum

/-- `get_exp_moving_average_filter`: `variable.ewm(alpha=grid_params.alpha).mean()`
(pandas defaults: `adjust=True`, `ignore_na=False`). -/
def get_exp_moving_average_filter (variab : Series)
    (grid_params : ExpMovingAverageGridParams) : Series :=
  let vals := variab.map Prod.snd
  variab.mapIdx fun i e =>
    (e.1, match e.2 with
          | none => none
          | some _ => some (ewmNum vals grid_params.alpha i / ewmDen vals grid_params.alpha i))

/-! ### Kalman smoother

`get_kalman_filter` builds a fixed two-state constant-velocity model and runs
the `simdkalman` forward-backward (Rauch-Tung-Striebel) smoothing pass.  The
smoothing pass itself lives in the external `simdkalman` library; it is
embedded here by its standard equations, with the matrices fixed exactly as in
the source (`state_transition=[[1,1],[0,1]]`, `process_noise=diag(0.1,0.01)`,
`observation_model=[[1,0]]`, `observation_noise=1.0`). -/

/-- A 2-vector over ℚ. -/
structure Vec2 where
  a : ℚ
  b : ℚ
deriving DecidableEq, Repr

/-- A 2×2 matrix over ℚ (row major: `[[a, b], [c, d]]`). -/
structure Mat2 where
  a : ℚ
  b : ℚ
  c : ℚ
  d : ℚ
deriving DecidableEq, Repr

def Mat2.mul (m n : Mat2) : Mat2 :=
  ⟨m.a * n.a + m.b * n.c, m.a * n.b + m.b * n.d,
   m.c * n.a + m.d * n.c, m.c * n.b + m.d * n.d⟩

def Mat2.addM (m n : Mat2) : Mat2 := ⟨m.a + n.a, m.b + n.b, m.c + n.c, m.d + n.d⟩

def Mat2.subM (m n : Mat2) : Mat2 := ⟨m.a - n.a, m.b - n.b, m.c - n.c, m.d - n.d⟩

def Mat2.transpose (m : Mat2) : Mat2 := ⟨m.a, m.c, m.b, m.d⟩

/-- Inverse of a 2×2 matrix (the zero matrix when singular; in the pipeline the
inverted innovation/prediction covariances are positive definite). -/
def Mat2.inv (m : Mat2) : Mat2 :=
  let det := m.a * m.d - m.b * m.c
  ⟨m.d / det, -m.b / det, -m.c / det, m.a / det⟩

def Mat2.apply (m : Mat2) (v : Vec2) : Vec2 := ⟨m.a * v.a + m.b * v.b, m.c * v.a + m.d * v.b⟩

def Vec2.addV (v w : Vec2) : Vec2 := ⟨v.a + w.a, v.b + w.b⟩

def Vec2.subV (v w : Vec2) : Vec2 := ⟨v.a - w.a, v.b - w.b⟩

/-- `state_transition = [[1, 1], [0, 1]]` -/
def kalmanA : Mat2 := ⟨1, 1, 0, 1⟩

/-- `process_noise = diag(0.1, 0.01)` -/
def kalmanQ : Mat2 := ⟨1/10, 0, 0, 1/100⟩

/-- One predict-update step of the forward Kalman pass for the fixed model
(`observation_model=[1,0]`, `observation_noise=1.0`); an undefined observation
skips the update.  Returns `((prior mean, prior cov), (posterior mean,
posterior cov))`. -/
def kalmanStep (m : Vec2) (P : Mat2) (y : Val) : (Vec2 × Mat2) × (Vec2 × Mat2) :=
  let mp := kalmanA.apply m
  let Pp := ((kalmanA.mul P).mul kalmanA.transpose).addM kalmanQ
  match y with
  | none => ((mp, Pp), (mp, Pp))
  | some yv =>
      let S := Pp.a + 1
      let K : Vec2 := ⟨Pp.a / S, Pp.c / S⟩
      let mf : Vec2 := ⟨mp.a + K.a * (yv - mp.a), mp.b + K.b * (yv - mp.a)⟩
      let Pf : Mat2 := ⟨Pp.a - K.a * Pp.a, Pp.b - K.a * Pp.b,
                        Pp.c - K.b * Pp.a, Pp.d - K.b * Pp.b⟩
      ((mp, Pp), (mf, Pf))

/-- Forward filtering pass: for each observation, the prior and posterior
state estimates. -/
def kalmanForward (m : Vec2) (P : Mat2) : List Val → List ((Vec2 × Mat2) × (Vec2 × Mat2))
  | [] => []
  | y :: ys =>
      let st := kalmanStep m P y
      st :: kalmanForward st.2.1 st.2.2 ys

/-- Backward Rauch-Tung-Striebel recursion, consuming the forward results in
reverse order; `nextSm`/`nextPrior` belong to the already-smoothed successor
step.  Produces the smoothed means, latest first. -/
def kalmanBackward (nextSm : Vec2 × Mat2) (nextPrior : Vec2 × Mat2) :
    List ((Vec2 × Mat2) × (Vec2 × Mat2)) → List Vec2
  | [] => []
  | st :: rest =>
      let C := ((st.2.2.mul kalmanA.transpose).mul nextPrior.2.inv)
      let smMean := st.2.1.addV (C.apply (nextSm.1.subV nextPrior.1))
      let smCov := st.2.2.addM ((C.mul ((nextSm.2.subM nextPrior.2).mul C.transpose)))
      smMean :: kalmanBackward (smMean, smCov) st.1 rest

/-- The full forward-backward smoothing pass over a series of observations,
returning the smoothed state mean of every step (initial state: zero mean,
unit covariance). -/
def kalmanSmooth (vals : List Val) : List Vec2 :=
  let fwd := kalmanForward ⟨0, 0⟩ ⟨1, 0, 0, 1⟩ vals
  match fwd.reverse with
  | [] => []
  | last :: rest => ((last.2.1 :: kalmanBackward last.2 last.1 rest)).reverse

/-- `get_kalman_filter`: run the fixed-model smoother over the series and wrap
the level component in a series carrying the input's index
(`pd.Series(smoothed.states.mean[:, 0], index=variable.index)`). -/
def get_kalman_filter (variab : Series) (grid_params : KalmanGridParams) : Series :=
  (variab.map Prod.fst).zip ((kalmanSmooth (variab.map Prod.snd)).map fun v => some v.a)

/-! ## Estimators (`MODEL_MAPPING`, `_load_model`)

The concrete sklearn / xgboost regressors are external collaborators; the spec
fixes only their `fit`/`predict` interface.  Two aspects of `_load_model` are
embedded separately: the *object identity* of what it returns (the module-level
`MODEL_MAPPING` dict holds estimator **instances** built once at import time),
and the *behavioral* estimator kind used by the evaluation pipeline. -/

/-- The six recognized `MODEL_MAPPING` keys, in source order. -/
def MODEL_MAPPING_keys : List String :=
  ["LinearRegression", "RidgeRegression", "LassoRegression",
   "SVM", "XGBoostRegression", "RandomForestRegression"]

/-- A Python heap abstracted to its allocation counter; object identities are
the naturals already allocated. -/
structure PyHeap where
  next : ℕ
deriving DecidableEq, Repr

/-- The heap right after `import`: the six `MODEL_MAPPING` estimator instances
occupy ids `0..5` (one per key, in source order). -/
def importHeap : PyHeap := ⟨6⟩

/-- Object identity of `_load_model`:
`MODEL_MAPPING.get(self._model_name, LinearRegression())`.  The default
argument `LinearRegression()` is evaluated (allocated) on every call, but the
id returned for a recognized key is the import-time instance `MODEL_MAPPING`
already holds. -/
def load_model_obj (model_name : String) (h : PyHeap) : ℕ × PyHeap :=
  let fresh := h.next
  let h' : PyHeap := ⟨h.next + 1⟩
  match MODEL_MAPPING_keys.indexOf? model_name with
  | some i => (i, h')
  | none => (fresh, h')

/-- The behavioral estimator kinds appearing in `MODEL_MAPPING`. -/
inductive EstimatorKind where
  | linear | ridge | lasso | svm | xgboost | randomForest
deriving DecidableEq, Repr

/-- Behavioral content of `MODEL_MAPPING` (which estimator a key maps to). -/
def MODEL_MAPPING_kind (model_name : String) : Option EstimatorKind :=
  if model_name = "LinearRegression" then some .linear
  else if model_name = "RidgeRegression" then some .ridge
  else if model_name = "LassoRegression" then some .lasso
  else if model_name = "SVM" then some .svm
  else if model_name = "XGBoostRegression" then some .xgboost
  else if model_name = "RandomForestRegression" then some .randomForest
  else none

/-- Behavioral part of `_load_model`: an unrecognized key falls back to a plain
`LinearRegression()`. -/
def load_model_kind (model_name : String) : EstimatorKind :=
  (MODEL_MAPPING_kind model_name).getD .linear

/-- An estimator at the interface the spec fixes (fit on the training features
and target, predict on the test features); the concrete regressors are
external, so the pipeline is parametric in one such function per kind. -/
abbrev EstimatorFun :=
  List (List ℚ) → List ℚ → List (List ℚ) → Except PyError (List ℚ)

/-- A simple concrete estimator used to instantiate the pipeline: refuses to
fit zero samples (as sklearn does) and predicts the training-target mean. -/
def meanEstimator : EstimatorFun := fun x_train y_train x_test =>
  if x_train.length = 0 then .error .emptyData
  else .ok (x_test.map fun _ => listMean y_train)

/-! ## Metrics (`get_scores`) -/

/-- Modelled from the spec: the metric formulas (`mean_absolute_error`,
`mean_squared_error`, `r2_score` from sklearn) are external collaborators, out
of scope per §1; §7 fixes `MetricComputationError`: "mismatched or empty
prediction/target alignment aborts the search".  Standard formulas otherwise. -/
def get_scores (y_true y_predict : List ℚ) : Except PyError FinalMetrics :=
  if y_true.length = y_predict.length ∧ y_true.length ≠ 0 then
    .ok { mae := listMean ((y_true.zip y_predict).map fun ab => |ab.1 - ab.2|)
        , mse := listMean ((y_true.zip y_predict).map fun ab => (ab.1 - ab.2) ^ 2)
        , r2 := 1 - (((y_true.zip y_predict).map fun ab => (ab.1 - ab.2) ^ 2).sum)
                      / ((y_true.map fun a => (a - listMean y_true) ^ 2).sum) }
  else .error .metricFailure

/-! ## Feature pipeline (external collaborator, `src/models/dataset.py`) -/

/-- The `lag`-steps-back value at position `i` (`none` when fewer than `lag`
prior samples exist). -/
def lagVal (vals : List Val) (i lag : ℕ) : Val :=
  if lag ≤ i then vals.getD (i - lag) none else none

/-- Modelled from the spec: `create_ar_filter_table` is imported from
`src/models/dataset.py`, which is not among the provided sources.  Spec §6:
"produces lagged features from both raw and filtered series, one row per
timestamp, undefined values in warm-up rows", §3: "lag features need
`max(p,q)` prior samples".  Row `i` carries the `p` raw lags and the `q`
filtered lags; a cell is undefined when its source sample does not exist or is
itself undefined. -/
def create_ar_filter_table (variab : Series) (p q : ℕ) (filter_variable : Series) :
    Table :=
  variab.mapIdx fun i e =>
    (e.1, ((List.range p).map fun k => lagVal (variab.map Prod.snd) i (k + 1)) ++
          ((List.range q).map fun k => lagVal (filter_variable.map Prod.snd) i (k + 1)))

/-- Modelled from the spec: `create_next_day_price` is imported from
`src/models/dataset.py`, which is not among the provided sources.  Spec §6:
"produces the next-period value aligned one step ahead of each timestamp,
with the final row undefined". -/
def create_next_day_price (variab : Series) : Series :=
  variab.mapIdx fun i e => (e.1, (variab.map Prod.snd).getD (i + 1) none)

/-- `x["next_day_price"] = ...`: append the target series as the final column
of the feature table (both are indexed by the raw series' timestamps). -/
def withTarget (x : Table) (t : Series) : Table :=
  (x.zip t).map fun rt => (rt.1.1, rt.1.2 ++ [rt.2.2])

/-! ## Evaluator (`_train_and_evaluate`) -/

/-- The engine configuration (`BestFilterFinder.__init__`). -/
structure BestFilterFinder where
  model_name : String
  metric_name : String
  validation_percent : ℚ
  processes : ℕ := 10
deriving DecidableEq, Repr

/-- `self._metric_maximize = self._metric_name == "r2"`. -/
def BestFilterFinder.metric_maximize (cfg : BestFilterFinder) : Bool :=
  cfg.metric_name == "r2"

/-- The chronological split position
`int(len(variable) * (1 - self._validation_percent))`. -/
def splitIndex (n : ℕ) (validation_percent : ℚ) : ℕ :=
  (Int.floor ((n : ℚ) * (1 - validation_percent))).toNat

/-- The candidate's lag-feature table: `create_ar_filter_table` applied to the
candidate's filtered series. -/
def evalFeatures {α : Type} [GridParamsAttrs α] (grid_params : α) (variab : Series)
    (get_filter_method : Series → α → Series) : Table :=
  create_ar_filter_table variab (GridParamsAttrs.p grid_params)
    (GridParamsAttrs.q grid_params) (get_filter_method variab grid_params)

/-- The combined table the evaluator splits: lag features of the candidate's
filtered series plus the `next_day_price` target column. -/
def evalFullTable {α : Type} [GridParamsAttrs α] (grid_params : α) (variab : Series)
    (get_filter_method : Series → α → Series) : Table :=
  withTarget (evalFeatures grid_params variab get_filter_method)
    (create_next_day_price variab)

/-- `x_train = x.iloc[:split]` followed by `x_train.dropna()`. -/
def evalTrainTable {α : Type} [GridParamsAttrs α] (cfg : BestFilterFinder)
    (grid_params : α) (variab : Series) (get_filter_method : Series → α → Series) : Table :=
  dropna ((evalFullTable grid_params variab get_filter_method).take
    (splitIndex variab.length cfg.validation_percent))

/-- `x_test = x.iloc[split:]` followed by `x_test.dropna()`. -/
def evalTestTable {α : Type} [GridParamsAttrs α] (cfg : BestFilterFinder)
    (grid_params : α) (variab : Series) (get_filter_method : Series → α → Series) : Table :=
  dropna ((evalFullTable grid_params variab get_filter_method).drop
    (splitIndex variab.length cfg.validation_percent))

/-- `x.iloc[:, :-1]`: the feature cells of a row (all defined after `dropna`). -/
def rowFeatures (r : Row) : List ℚ := r.2.dropLast.map fun o => o.getD 0

/-- `x.iloc[:, -1]`: the target cell of a row (defined after `dropna`). -/
def rowTarget (r : Row) : ℚ := ((r.2.getLast?).getD none).getD 0

/-- `_train_and_evaluate`: apply the filter, build the combined table, split it
chronologically, drop undefined rows from each side, fit the configured
estimator, predict, and score.  The pipeline is parametric in the assignment
`impls` of a concrete fit-and-predict function to each estimator kind. -/
def _train_and_evaluate {α : Type} [GridParamsAttrs α] (impls : EstimatorKind → EstimatorFun)
    (cfg : BestFilterFinder) (grid_params : α) (variab : Series)
    (get_filter_method : Series → α → Series) : Except PyError (List ℚ × FinalMetrics) :=
  let x_train := evalTrainTable cfg grid_params variab get_filter_method
  let x_test := evalTestTable cfg grid_params variab get_filter_method
  match impls (load_model_kind cfg.model_name)
      (x_train.map rowFeatures) (x_train.map rowTarget) (x_test.map rowFeatures) with
  | .error e => .error e
  | .ok y_predict =>
      match get_scores (x_test.map rowTarget) y_predict with
      | .error e => .error e
      | .ok metrics => .ok (y_predict, metrics)

/-! ## Ranker and coordinator (`_grid_search`) -/

/-- Stable insertion of `a` behind every already-placed element whose key
compares less-or-equal in the chosen direction — the observable behavior of
Python's stable `sorted(..., key=key, reverse=maximize)`. -/
def sortedInsert {β : Type} (maximize : Bool) (key : β → ℚ) (a : β) : List β → List β
  | [] => [a]
  | b :: bs =>
      if (if maximize then key a ≤ key b else key b ≤ key a) then
        b :: sortedInsert maximize key a bs
      else
        a :: b :: bs

/-- Python's `sorted(l, key=key, reverse=maximize)`: a stable sort, ascending
in `key` (descending when `maximize`), ties kept in original order. -/
def pySorted {β : Type} (maximize : Bool) (key : β → ℚ) (l : List β) : List β :=
  l.foldl (fun acc x => sortedInsert maximize key x acc) []

/-- What `getattr(metrics, name)` yields on a `FinalMetrics` named tuple, as
far as the ranking key's sort behavior is concerned. -/
inductive MetricAttr where
  /-- one of the float fields `mae`/`mse`/`r2`: keys sort numerically -/
  | field (f : FinalMetrics → ℚ) : MetricAttr
  /-- `_fields`: the class-level tuple `('mae', 'mse', 'r2')`, identical for
  every instance, so all keys compare equal -/
  | constantAttr : MetricAttr
  /-- `count`, `index`, `_asdict`, `_replace`, `_make`: per-object bound
  methods, which `<` refuses to compare -/
  | method : MetricAttr
  /-- no such attribute: `getattr` raises `AttributeError` -/
  | missing : MetricAttr

/-- `getattr(metrics, metric_name)` on the `FinalMetrics` named tuple: besides
the three fields, named tuples inherit `count`/`index` from `tuple` and the
`_fields`/`_asdict`/`_replace`/`_make` named-tuple API, on all of which the
lookup succeeds.  Python additionally resolves a fixed set of `__...__`
special attributes whose sort behavior differs per attribute; those lookups
are outside the modelled surface (no metric name plausibly uses them), and the
theorems below restrict themselves to names that are not `__`-prefixed. -/
def getMetricAttr (metric_name : String) : MetricAttr :=
  if metric_name = "mae" then .field FinalMetrics.mae
  else if metric_name = "mse" then .field FinalMetrics.mse
  else if metric_name = "r2" then .field FinalMetrics.r2
  else if metric_name = "_fields" then .constantAttr
  else if metric_name = "count" then .method
  else if metric_name = "index" then .method
  else if metric_name = "_asdict" then .method
  else if metric_name = "_replace" then .method
  else if metric_name = "_make" then .method
  else .missing

/-- The ranking step of `_grid_search`:
`sorted(zip(all_variants, results), key=lambda x: getattr(x[1][1], metric_name),
reverse=metric_maximize)[0]`.  Sorting an empty list performs no key call, so
the subscript raises `IndexError`.  With candidates present: a missing
attribute raises `AttributeError` from the key function; a float field sorts
the pairs stably; the constant `_fields` tuple makes every key equal, so the
stable sort returns the pairs unmoved and the first candidate wins; a
bound-method key sorts a singleton without any comparison but raises
`TypeError` on the first comparison once two candidates are present. -/
def rankCandidates {α : Type} (metric_name : String)
    (pairs : List (α × List ℚ × FinalMetrics)) :
    Except PyError (α × List ℚ × FinalMetrics) :=
  match pairs with
  | [] => .error .indexError
  | p :: ps =>
      match getMetricAttr metric_name with
      | .missing => .error (.attributeError metric_name)
      | .field f =>
          match (pySorted (metric_name == "r2") (fun pr => f pr.2.2) (p :: ps)).head? with
          | none => .error .indexError
          | some best => .ok best
      | .constantAttr => .ok p
      | .method =>
          match ps with
          | [] => .ok p
          | _ :: _ => .error .typeError

/-- The final output bundle
`(y_test, best_filter, best_predict, best_params, best_metrics)`. -/
structure GridSearchResult (α : Type) where
  y_test : Series
  best_filter : Series
  best_predict : List ℚ
  best_params : α
  best_metrics : FinalMetrics
deriving DecidableEq, Repr

/-- The assembler's recomputed held-out target:
`create_next_day_price(variable).dropna()[int(len(variable) * (1 - v)):]`
(for a series with a positional integer index, the slice is positional). -/
def assembledYTest (cfg : BestFilterFinder) (variab : Series) : Series :=
  (seriesDropna (create_next_day_price variab)).drop
    (splitIndex variab.length cfg.validation_percent)

/-- `.loc[labels]`: label-based selection, one output row per requested label,
in the requested order. -/
def locSeries (s : Series) (labels : List ℤ) : Series :=
  labels.map fun t => (t, ((s.find? fun e => e.1 = t).map Prod.snd).getD none)

/-- `_grid_search`: evaluate every candidate (the process pool's `imap` is an
order-preserving parallel map whose first failure, in candidate order,
propagates to the caller), rank the `(candidate, result)` pairs, and assemble
the output bundle for the winner. -/
def _grid_search {α : Type} [GridParamsAttrs α] (impls : EstimatorKind → EstimatorFun)
    (cfg : BestFilterFinder) (all_variants : List α) (variab : Series)
    (get_filter_method : Series → α → Series) : Except PyError (GridSearchResult α) :=
  match all_variants.mapM
      (fun gp => _train_and_evaluate impls cfg gp variab get_filter_method) with
  | .error e => .error e
  | .ok results =>
      match rankCandidates cfg.metric_name (all_variants.zip results) with
      | .error e => .error e
      | .ok best_result =>
          let y_test := assembledYTest cfg variab
          let best_filter :=
            locSeries (get_filter_method variab best_result.1) (y_test.map Prod.fst)
          .ok { y_test := y_test
              , best_filter := best_filter
              , best_predict := best_result.2.1
              , best_params := best_result.1
              , best_metrics := best_result.2.2 }

/-! ## Grid generators -/

/-- Python's `range(start, stop, step)` for a positive step. -/
def pyRange (start stop step : ℕ) : List ℕ :=
  (List.range ((stop - start + step - 1) / step)).map fun i => start + step * i

/-- The `q`/window sweep bound `min(int(len(variable) * 0.1), 105)`. -/
def sweepBound (n : ℕ) : ℕ := min (Int.floor ((n : ℚ) * (1/10))).toNat 105

/-- The moving-average candidate list: the `window=0, q=0` baseline followed by
the cartesian product `q_range × moving_average_range` (`itertools.product`
iterates the second component fastest). -/
def movingAverageVariants (n p : ℕ) (q : Option ℕ) : List MovingAverageGridParams :=
  let q_range : List ℕ := match q with
    | some qv => [qv]
    | none => pyRange 1 (sweepBound n) 5
  let moving_average_range := pyRange 1 (sweepBound n) 5
  ⟨0, 0, p⟩ :: q_range.flatMap fun qv => moving_average_range.map fun w => ⟨qv, w, p⟩

/-- `np.arange(start, stop, step)` over exact rationals. -/
def npArange (start stop step : ℚ) : List ℚ :=
  (List.range (Int.ceil ((stop - start) / step)).toNat).map fun i => start + step * i

/-- The exponential-moving-average candidate list:
`q_range × np.arange(0.01, 1, 0.04)`, no baseline sentinel. -/
def expMovingAverageVariants (n p : ℕ) (q : Option ℕ) : List ExpMovingAverageGridParams :=
  let q_range : List ℕ := match q with
    | some qv => [qv]
    | none => pyRange 1 (sweepBound n) 5
  let alpha_range := npArange (1/100) 1 (1/25)
  q_range.flatMap fun qv => alpha_range.map fun alpha => ⟨qv, alpha, p⟩

/-- The Kalman candidate list: `q_range` alone. -/
def kalmanVariants (n p : ℕ) (q : Option ℕ) : List KalmanGridParams :=
  let q_range : List ℕ := match q with
    | some qv => [qv]
    | none => pyRange 1 (sweepBound n) 5
  q_range.map fun qv => ⟨qv, p⟩

/-- `grid_search_moving_average`. -/
def grid_search_moving_average (impls : EstimatorKind → EstimatorFun)
    (cfg : BestFilterFinder) (variab : Series) (p : ℕ) (q : Option ℕ) :
    Except PyError (GridSearchResult MovingAverageGridParams) :=
  _grid_search impls cfg (movingAverageVariants variab.length p q) variab
    get_moving_average_filter

/-- `grid_search_exp_moving_average`. -/
def grid_search_exp_moving_average (impls : EstimatorKind → EstimatorFun)
    (cfg : BestFilterFinder) (variab : Series) (p : ℕ) (q : Option ℕ) :
    Except PyError (GridSearchResult ExpMovingAverageGridParams) :=
  _grid_search impls cfg (expMovingAverageVariants variab.length p q) variab
    get_exp_moving_average_filter

/-- `grid_search_kalman`. -/
def grid_search_kalman (impls : EstimatorKind → EstimatorFun)
    (cfg : BestFilterFinder) (variab : Series) (p : ℕ) (q : Option ℕ) :
    Except PyError (GridSearchResult KalmanGridParams) :=
  _grid_search impls cfg (kalmanVariants variab.length p q) variab get_kalman_filter

/-! ## Statement vocabulary and witness fixtures -/

/-- The shared per-family `q_range`
(`range(1, min(int(len(variable) * 0.1), 105), 5) if q is None else [q]`,
written identically in all three `grid_search_*` functions). -/
def familyQRange (n : ℕ) (q : Option ℕ) : List ℕ :=
  match q with
  | some qv => [qv]
  | none => pyRange 1 (sweepBound n) 5

/-- The `q`-sweep as the claim words it: the arithmetic progression
`1, 6, 11, …` of **all** values strictly below `min(0.1·n, 105)` — the real
bound, not its integer truncation.  Stated for comparison with the code's
range. -/
def claimedQRange (n : ℕ) : List ℕ :=
  (pyRange 1 106 5).filter fun k => ((k : ℚ) < min ((n : ℚ) * (1/10)) 105)

/-- "`a` sorts strictly in front of `b`" in the chosen direction: a strictly
smaller key ascending, a strictly larger key descending. -/
def strictlyBetter {β : Type} (maximize : Bool) (key : β → ℚ) (a b : β) : Prop :=
  match maximize with
  | true => key b < key a
  | false => key a < key b

instance {β : Type} (maximize : Bool) (key : β → ℚ) (a b : β) :
    Decidable (strictlyBetter maximize key a b) := by
  unfold strictlyBetter
  match maximize with
  | true => exact inferInstance
  | false => exact inferInstance

/-- The ranking key a valid metric name selects. -/
def metricKey (metric_name : String) (m : FinalMetrics) : ℚ :=
  match getMetricAttr metric_name with
  | .field f => f m
  | _ => m.mae

/-- Witness fixture: a 4-sample strictly increasing series. -/
def wSeries : Series := [(0, some 1), (1, some 2), (2, some 3), (3, some 4)]

/-- Witness fixture: a configuration ranking by `mae` with a 50% test window. -/
def wCfg : BestFilterFinder :=
  { model_name := "LinearRegression", metric_name := "mae", validation_percent := 1/2 }

/-- Witness fixture: the same configuration with a nonexistent metric name. -/
def wCfgBad : BestFilterFinder :=
  { model_name := "LinearRegression", metric_name := "rmse", validation_percent := 1/2 }

/-- Witness fixture: the no-smoothing sentinel candidate with `p = 1`. -/
def wGp : MovingAverageGridParams := ⟨0, 0, 1⟩

/-- Witness fixture: every estimator kind implemented by `meanEstimator`. -/
def wImpls : EstimatorKind → EstimatorFun := fun _ => meanEstimator

/-- Witness fixture: two ranking pairs with `mae` values `1` and `2`. -/
def wPairs : List (ℕ × List ℚ × FinalMetrics) :=
  [(1, [], ⟨1, 0, 0⟩), (2, [], ⟨2, 0, 0⟩)]

/-- Witness fixture: the bundle the concrete 4-sample search returns. -/
def wRes : GridSearchResult MovingAverageGridParams :=
  { y_test := [(2, some 4)], best_filter := [(2, none)], best_predict := [3],
    best_params := wGp, best_metrics := ⟨1, 1, 1⟩ }

/-! ## Helper lemmas -/

theorem labels_mapIdx {α β : Type} (l : List (ℤ × α)) (g : ℕ → (ℤ × α) → β) :
    ((l.mapIdx fun i e => (e.1, g i e)).map Prod.fst) = l.map Prod.fst := by
  apply List.ext_getElem
  · simp
  · intro i h1 h2
    simp [List.mapIdx_eq_enum_map, List.getElem_enum]

theorem length_mapIdx_pair {α β : Type} (l : List (ℤ × α)) (g : ℕ → (ℤ × α) → β) :
    (l.mapIdx fun i e => (e.1, g i e)).length = l.length := by
  simp

theorem kalmanForward_length (m : Vec2) (P : Mat2) (ys : List Val) :
    (kalmanForward m P ys).length = ys.length := by
  induction ys generalizing m P with
  | nil => rfl
  | cons y ys ih => simp [kalmanForward, ih]

theorem kalmanBackward_length (nextSm nextPrior : Vec2 × Mat2)
    (l : List ((Vec2 × Mat2) × (Vec2 × Mat2))) :
    (kalmanBackward nextSm nextPrior l).length = l.length := by
  induction l generalizing nextSm nextPrior with
  | nil => rfl
  | cons st rest ih => simp [kalmanBackward, ih]

theorem kalmanSmooth_length (vals : List Val) : (kalmanSmooth vals).length = vals.length := by
  unfold kalmanSmooth
  dsimp only
  have hlen : (kalmanForward ⟨0, 0⟩ ⟨1, 0, 0, 1⟩ vals).length = vals.length :=
    kalmanForward_length _ _ _
  cases h : (kalmanForward ⟨0, 0⟩ ⟨1, 0, 0, 1⟩ vals).reverse with
  | nil =>
      have h0 : vals.length = 0 := by
        rw [← hlen, ← List.length_reverse, h]; rfl
      simp [h0]
  | cons last rest =>
      have h1 : vals.length = rest.length + 1 := by
        rw [← hlen, ← List.length_reverse, h]; simp
      simp [kalmanBackward_length, h1]

/-- The labels of a moving-average filtered series are the input's labels. -/
theorem get_moving_average_filter_labels (v : Series) (g : MovingAverageGridParams) :
    (get_moving_average_filter v g).map Prod.fst = v.map Prod.fst :=
  labels_mapIdx v _

/-- The labels of an exponentially-smoothed series are the input's labels. -/
theorem get_exp_moving_average_filter_labels (v : Series) (g : ExpMovingAverageGridParams) :
    (get_exp_moving_average_filter v g).map Prod.fst = v.map Prod.fst :=
  labels_mapIdx v _

/-- The labels of a Kalman-smoothed series are the input's labels. -/
theorem get_kalman_filter_labels (v : Series) (g : KalmanGridParams) :
    (get_kalman_filter v g).map Prod.fst = v.map Prod.fst := by
  unfold get_kalman_filter
  apply List.map_fst_zip
  simp [kalmanSmooth_length]

/-- C8 (claim theorem): for every input series and every parameter set, each of
the three filter functions returns a series of the same length and with the
identical index as its input series. -/
theorem filters_preserve_length_and_index (v : Series) (g1 : MovingAverageGridParams)
    (g2 : ExpMovingAverageGridParams) (g3 : KalmanGridParams) :
    ((get_moving_average_filter v g1).map Prod.fst = v.map Prod.fst
       ∧ (get_moving_average_filter v g1).length = v.length)
    ∧ ((get_exp_moving_average_filter v g2).map Prod.fst = v.map Prod.fst
       ∧ (get_exp_moving_average_filter v g2).length = v.length)
    ∧ ((get_kalman_filter v g3).map Prod.fst = v.map Prod.fst
       ∧ (get_kalman_filter v g3).length = v.length) := by
  refine ⟨⟨get_moving_average_filter_labels v g1, ?_⟩,
          ⟨get_exp_moving_average_filter_labels v g2, ?_⟩,
          ⟨get_kalman_filter_labels v g3, ?_⟩⟩
  · simp [get_moving_average_filter]
  · simp [get_exp_moving_average_filter]
  · have := get_kalman_filter_labels v g3
    calc (get_kalman_filter v g3).length
        = ((get_kalman_filter v g3).map Prod.fst).length := by simp
      _ = v.length := by rw [this]; simp

/-! ## C3: estimator object identity -/

/-- C3 (counterexample): right after import, `_load_model("LinearRegression")`
returns an object allocated *before* the call (the import-time instance held in
`MODEL_MAPPING`), not a newly constructed one, and a second call returns the
very same object — so one estimator instance is shared across evaluator calls. -/
theorem load_model_not_fresh :
    ¬ (importHeap.next ≤ (load_model_obj "LinearRegression" importHeap).1)
    ∧ (load_model_obj "LinearRegression" importHeap).1
        = (load_model_obj "LinearRegression"
            (load_model_obj "LinearRegression" importHeap).2).1 := by
  constructor
  · decide
  · rfl

/-- C3 (amended claim): for a recognized model name, `_load_model` returns the
single module-level instance created at import time — the same object on every
call, hence shared across candidates and searches — while an unrecognized name
constructs a fresh default estimator on each call. -/
theorem load_model_shares_import_instances (name : String) (h h' : PyHeap) :
    (name ∈ MODEL_MAPPING_keys →
      (load_model_obj name h).1 = (load_model_obj name h').1
      ∧ (load_model_obj name h).1 < importHeap.next)
    ∧ (name ∉ MODEL_MAPPING_keys → (load_model_obj name h).1 = h.next) := by
  constructor
  · intro hm
    fin_cases hm <;> exact ⟨rfl, Nat.le_of_sub_eq_zero rfl⟩
  · intro hm
    have hnone : MODEL_MAPPING_keys.indexOf? name = none := by
      rw [List.indexOf?_eq_none_iff]
      simp only [beq_iff_eq]
      intro x hx heq
      exact hm (heq ▸ hx)
    simp [load_model_obj, hnone]

/-- C3 (witness for the amended claim): discharging both membership hypotheses
at explicit model names and heaps. -/
theorem load_model_shares_import_instances_witness :
    (("LinearRegression" ∈ MODEL_MAPPING_keys →
      (load_model_obj "LinearRegression" importHeap).1
        = (load_model_obj "LinearRegression" ⟨42⟩).1
      ∧ (load_model_obj "LinearRegression" importHeap).1 < importHeap.next)
    ∧ ("LinearRegression" ∉ MODEL_MAPPING_keys →
      (load_model_obj "LinearRegression" importHeap).1 = importHeap.next))
    ∧ (("NoSuchModel" ∈ MODEL_MAPPING_keys →
      (load_model_obj "NoSuchModel" importHeap).1
        = (load_model_obj "NoSuchModel" ⟨42⟩).1
      ∧ (load_model_obj "NoSuchModel" importHeap).1 < importHeap.next)
    ∧ ("NoSuchModel" ∉ MODEL_MAPPING_keys →
      (load_model_obj "NoSuchModel" importHeap).1 = importHeap.next)) :=
  ⟨load_model_shares_import_instances "LinearRegression" importHeap ⟨42⟩,
   load_model_shares_import_instances "NoSuchModel" importHeap ⟨42⟩⟩

/-! ## C7: grid structure -/

/-- Membership in the stride-5 sweep `range(1, B, 5)`. -/
theorem mem_pyRange_one_five (B k : ℕ) : k ∈ pyRange 1 B 5 ↔ (k % 5 = 1 ∧ k < B) := by
  simp only [pyRange, List.mem_map, List.mem_range]
  constructor
  · rintro ⟨i, hi, rfl⟩
    omega
  · rintro ⟨h1, h2⟩
    exact ⟨k / 5, by omega, by omega⟩

/-- Membership in the claim-worded sweep, reduced to integer arithmetic
(`k < 0.1·n` over ℚ is exactly `10·k < n`). -/
theorem mem_claimedQRange (n k : ℕ) :
    k ∈ claimedQRange n ↔ (k % 5 = 1 ∧ k < 106 ∧ 10 * k < n ∧ k < 105) := by
  simp only [claimedQRange, List.mem_filter, mem_pyRange_one_five, decide_eq_true_eq,
    lt_min_iff]
  constructor
  · rintro ⟨⟨h1, h2⟩, h3, h4⟩
    refine ⟨h1, h2, ?_, ?_⟩
    · have h3' : (10 * k : ℚ) < n := by linarith
      exact_mod_cast h3'
    · exact_mod_cast h4
  · rintro ⟨h1, h2, h3, h4⟩
    refine ⟨⟨h1, h2⟩, ?_, ?_⟩
    · have h3' : ((10 * k : ℕ) : ℚ) < (n : ℚ) := by exact_mod_cast h3
      push_cast at h3'
      linarith
    · exact_mod_cast h4

/-- The sweep bound computed over exact rationals is the integer-division
bound. -/
theorem sweepBound_eq (n : ℕ) : sweepBound n = min (n / 10) 105 := by
  set m := n / 10 with hm
  have h1 : 10 * m ≤ n := by omega
  have h2 : n < 10 * m + 10 := by omega
  have hc1 : (10 : ℚ) * (m : ℚ) ≤ (n : ℚ) := by exact_mod_cast h1
  have hc2 : (n : ℚ) < 10 * (m : ℚ) + 10 := by exact_mod_cast h2
  have hfloor : Int.floor ((n : ℚ) * (1/10)) = (m : ℤ) := by
    rw [Int.floor_eq_iff]
    constructor
    · push_cast
      linarith
    · push_cast
      linarith
  unfold sweepBound
  rw [hfloor, Int.toNat_natCast]

/-- C7 (counterexample): for a series of length 61, `min(0.1·n, 105) = 6.1`,
so the claimed progression contains `6`, but the code sweeps
`range(1, min(int(6.1), 105), 5) = [1]`: no generated candidate uses `q = 6`
or `window = 6`. -/
theorem grid_bound_counterexample :
    (6 ∈ claimedQRange 61)
    ∧ (∀ gp ∈ movingAverageVariants 61 0 none, gp.q ≠ 6 ∧ gp.moving_average ≠ 6) := by
  constructor
  · rw [mem_claimedQRange]
    decide
  · have hv : movingAverageVariants 61 0 none
        = [⟨0, 0, 0⟩, ⟨1, 1, 0⟩] := by
      simp only [movingAverageVariants, sweepBound_eq]
      decide
    rw [hv]
    decide

/-- C7 (amended claim): all three families share the one `q_range` —
the singleton `[q]` when `q` is given, otherwise the stride-5 progression
`1, 6, 11, …` of values strictly below `min(⌊0.1·n⌋, 105)` (the *floor* of
`0.1·n`, not `0.1·n` itself); the moving-average `window_range` is the same
progression, its candidate set is the `q_range × window_range` product behind
the `window=0, q=0` sentinel, and every candidate carries the fixed `p`. -/
theorem grid_structure (n p : ℕ) (q : Option ℕ) :
    movingAverageVariants n p q
      = ⟨0, 0, p⟩ :: (familyQRange n q).flatMap
          (fun qv => (pyRange 1 (sweepBound n) 5).map fun w => ⟨qv, w, p⟩)
    ∧ expMovingAverageVariants n p q
      = (familyQRange n q).flatMap
          (fun qv => (npArange (1/100) 1 (1/25)).map fun alpha => ⟨qv, alpha, p⟩)
    ∧ kalmanVariants n p q = (familyQRange n q).map (fun qv => ⟨qv, p⟩)
    ∧ (∀ qv : ℕ, familyQRange n (some qv) = [qv])
    ∧ (∀ k, k ∈ familyQRange n none ↔ (k % 5 = 1 ∧ k < sweepBound n))
    ∧ ((sweepBound n : ℤ) = min (Int.floor ((n : ℚ) * (1/10))) 105) := by
  refine ⟨rfl, rfl, rfl, fun qv => rfl, fun k => mem_pyRange_one_five _ k, ?_⟩
  have h0 : (0 : ℤ) ≤ Int.floor ((n : ℚ) * (1/10)) :=
    Int.floor_nonneg.mpr (by positivity)
  simp only [sweepBound]
  omega

/-! ## Ranker lemmas -/

theorem strictlyBetter_irrefl {β : Type} (m : Bool) (key : β → ℚ) (a : β) :
    ¬ strictlyBetter m key a a := by
  cases m <;> simp [strictlyBetter]

theorem strictlyBetter_asymm {β : Type} {m : Bool} {key : β → ℚ} {a b : β}
    (h : strictlyBetter m key a b) : ¬ strictlyBetter m key b a := by
  cases m <;> simp only [strictlyBetter] at h ⊢ <;> exact not_lt.mpr h.le

theorem strictlyBetter_of_not_of {β : Type} {m : Bool} {key : β → ℚ} {a b c : β}
    (hab : ¬ strictlyBetter m key a b) (hcb : strictlyBetter m key c b) :
    strictlyBetter m key c a := by
  cases m <;> simp only [strictlyBetter, not_lt] at hab hcb ⊢ <;> linarith

theorem head?_sortedInsert {β : Type} (m : Bool) (key : β → ℚ) (a b : β) (l : List β) :
    (sortedInsert m key a (b :: l)).head? =
      some (if strictlyBetter m key a b then a else b) := by
  cases m
  · show (if key b ≤ key a then _ else _ : List β).head? = _
    by_cases h : key b ≤ key a
    · rw [if_pos h, if_neg (by simpa [strictlyBetter] using h)]
      rfl
    · rw [if_neg h, if_pos (by simpa [strictlyBetter] using not_le.mp h)]
      rfl
  · show (if key a ≤ key b then _ else _ : List β).head? = _
    by_cases h : key a ≤ key b
    · rw [if_pos h, if_neg (by simpa [strictlyBetter] using h)]
      rfl
    · rw [if_neg h, if_pos (by simpa [strictlyBetter] using not_le.mp h)]
      rfl

/-- The head of Python's stable sort is the element with the best key whose
index is least among the best: earlier elements with equal keys stay in
front, in both sort directions. -/
theorem pySorted_head_spec {β : Type} (m : Bool) (key : β → ℚ) (l : List β)
    (hne : l ≠ []) :
    ∃ i : Fin l.length, (pySorted m key l).head? = some (l.get i)
      ∧ (∀ j : Fin l.length, ¬ strictlyBetter m key (l.get j) (l.get i))
      ∧ (∀ j : Fin l.length, (j : ℕ) < (i : ℕ) →
          strictlyBetter m key (l.get i) (l.get j)) := by
  induction l using List.reverseRecOn with
  | nil => exact absurd rfl hne
  | append_singleton l₀ x ih =>
      have hps : pySorted m key (l₀ ++ [x]) = sortedInsert m key x (pySorted m key l₀) := by
        simp [pySorted, List.foldl_append]
      rcases eq_or_ne l₀ [] with h0 | h0
      · subst h0
        refine ⟨⟨0, by simp⟩, ?_, ?_, ?_⟩
        · simp [hps, pySorted, sortedInsert]
        · intro j
          have : j = ⟨0, by simp⟩ := by
            apply Fin.ext
            have := j.isLt
            simpa using Nat.lt_one_iff.mp (by simpa using this)
          rw [this]
          exact strictlyBetter_irrefl m key _
        · intro j hj
          exact absurd hj (Nat.not_lt_zero _)
      · obtain ⟨i, hhead, hopt, hfirst⟩ := ih h0
        cases hps' : pySorted m key l₀ with
        | nil => rw [hps'] at hhead; simp at hhead
        | cons h t =>
            have hh : h = l₀.get i := by
              rw [hps'] at hhead
              simpa using hhead
            subst hh
            by_cases hSB : strictlyBetter m key x (l₀.get i)
            · refine ⟨⟨l₀.length, by simp⟩, ?_, ?_, ?_⟩
              · rw [hps, hps', head?_sortedInsert, if_pos hSB]
                congr 1
                simp [List.get_eq_getElem, List.getElem_concat_length]
              · intro j
                have hget : (l₀ ++ [x]).get ⟨l₀.length, by simp⟩ = x := by
                  simp [List.get_eq_getElem, List.getElem_concat_length]
                rw [hget]
                rcases Nat.lt_or_ge (j : ℕ) l₀.length with hj | hj
                · have hgetj : (l₀ ++ [x]).get j = l₀.get ⟨j, hj⟩ := by
                    simp only [List.get_eq_getElem]
                    exact List.getElem_append_left hj
                  rw [hgetj]
                  exact strictlyBetter_asymm
                    (strictlyBetter_of_not_of (hopt ⟨j, hj⟩) hSB)
                · have hjeq : (j : ℕ) = l₀.length := by
                    have := j.isLt
                    simp at this
                    omega
                  have hgetj : (l₀ ++ [x]).get j = x := by
                    simp [List.get_eq_getElem, hjeq, List.getElem_concat_length]
                  rw [hgetj]
                  exact strictlyBetter_irrefl m key x
              · intro j hj
                simp only at hj
                have hjlt : (j : ℕ) < l₀.length := hj
                have hget : (l₀ ++ [x]).get ⟨l₀.length, by simp⟩ = x := by
                  simp [List.get_eq_getElem, List.getElem_concat_length]
                have hgetj : (l₀ ++ [x]).get j = l₀.get ⟨j, hjlt⟩ := by
                  simp only [List.get_eq_getElem]
                  exact List.getElem_append_left hjlt
                rw [hget, hgetj]
                exact strictlyBetter_of_not_of (hopt ⟨j, hjlt⟩) hSB
            · have hilt : (i : ℕ) < (l₀ ++ [x]).length := by
                have := i.isLt
                simp
                omega
              refine ⟨⟨i, hilt⟩, ?_, ?_, ?_⟩
              · rw [hps, hps', head?_sortedInsert, if_neg hSB]
                congr 1
                simp only [List.get_eq_getElem]
                exact (List.getElem_append_left i.isLt).symm
              · intro j
                have hgeti : (l₀ ++ [x]).get ⟨i, hilt⟩ = l₀.get i := by
                  simp only [List.get_eq_getElem]
                  exact List.getElem_append_left i.isLt
                rw [hgeti]
                rcases Nat.lt_or_ge (j : ℕ) l₀.length with hj | hj
                · have hgetj : (l₀ ++ [x]).get j = l₀.get ⟨j, hj⟩ := by
                    simp only [List.get_eq_getElem]
                    exact List.getElem_append_left hj
                  rw [hgetj]
                  exact hopt ⟨j, hj⟩
                · have hjeq : (j : ℕ) = l₀.length := by
                    have := j.isLt
                    simp at this
                    omega
                  have hgetj : (l₀ ++ [x]).get j = x := by
                    simp [List.get_eq_getElem, hjeq, List.getElem_concat_length]
                  rw [hgetj]
                  exact hSB
              · intro j hj
                simp only at hj
                have hjlt : (j : ℕ) < l₀.length := by
                  have := i.isLt
                  omega
                have hgeti : (l₀ ++ [x]).get ⟨i, hilt⟩ = l₀.get i := by
                  simp only [List.get_eq_getElem]
                  exact List.getElem_append_left i.isLt
                have hgetj : (l₀ ++ [x]).get j = l₀.get ⟨j, hjlt⟩ := by
                  simp only [List.get_eq_getElem]
                  exact List.getElem_append_left hjlt
                rw [hgeti, hgetj]
                exact hfirst ⟨j, hjlt⟩ hj

/-- `rankCandidates` returns the least-index optimum whenever the metric name
resolves to a field of `FinalMetrics`. -/
theorem rankCandidates_spec {α : Type} (metric_name : String) (f : FinalMetrics → ℚ)
    (hattr : getMetricAttr metric_name = .field f)
    (pairs : List (α × List ℚ × FinalMetrics)) (hne : pairs ≠ []) :
    ∃ i : Fin pairs.length,
      rankCandidates metric_name pairs = .ok (pairs.get i)
      ∧ (∀ j : Fin pairs.length,
          ¬ strictlyBetter (metric_name == "r2") (fun pr => f pr.2.2)
            (pairs.get j) (pairs.get i))
      ∧ (∀ j : Fin pairs.length, (j : ℕ) < (i : ℕ) →
          strictlyBetter (metric_name == "r2") (fun pr => f pr.2.2)
            (pairs.get i) (pairs.get j)) := by
  cases pairs with
  | nil => exact absurd rfl hne
  | cons p ps =>
      obtain ⟨i, hh, hopt, hfirst⟩ :=
        pySorted_head_spec (metric_name == "r2") (fun pr => f pr.2.2) (p :: ps)
          (by simp)
      refine ⟨i, ?_, hopt, hfirst⟩
      simp only [rankCandidates, hattr, hh]

/-- C1 (claim theorem): the ranker stable-sorts the `(candidate, result)`
pairs by the configured metric field — descending exactly when the maximize
flag `metric_name == "r2"` is set, ascending for `mae`/`mse` — and takes the
first element: the returned pair sits at an index `i` whose key no other pair
strictly beats in the sort direction, and every earlier pair is strictly worse,
so among equal metric values the earliest-generated candidate wins in both
directions. -/
theorem ranker_selects_earliest_optimum {α : Type} (metric_name : String)
    (pairs : List (α × List ℚ × FinalMetrics))
    (hm : metric_name = "mae" ∨ metric_name = "mse" ∨ metric_name = "r2")
    (hne : pairs ≠ []) :
    ∃ i : Fin pairs.length,
      rankCandidates metric_name pairs = .ok (pairs.get i)
      ∧ (∀ j : Fin pairs.length,
          ¬ strictlyBetter (metric_name == "r2") (fun pr => metricKey metric_name pr.2.2)
            (pairs.get j) (pairs.get i))
      ∧ (∀ j : Fin pairs.length, (j : ℕ) < (i : ℕ) →
          strictlyBetter (metric_name == "r2") (fun pr => metricKey metric_name pr.2.2)
            (pairs.get i) (pairs.get j)) := by
  rcases hm with rfl | rfl | rfl
  · exact rankCandidates_spec "mae" FinalMetrics.mae rfl pairs hne
  · exact rankCandidates_spec "mse" FinalMetrics.mse rfl pairs hne
  · exact rankCandidates_spec "r2" FinalMetrics.r2 rfl pairs hne

/-- C1 (witness): ranking the two concrete pairs with `mae` values `1` and `2`
by `mae`, with every hypothesis discharged at this input. -/
theorem ranker_selects_earliest_optimum_witness :
    (("mae" : String) = "mae" ∨ ("mae" : String) = "mse" ∨ ("mae" : String) = "r2")
    ∧ wPairs ≠ []
    ∧ ∃ i : Fin wPairs.length,
        rankCandidates "mae" wPairs = .ok (wPairs.get i)
        ∧ (∀ j : Fin wPairs.length,
            ¬ strictlyBetter ("mae" == "r2") (fun pr => metricKey "mae" pr.2.2)
              (wPairs.get j) (wPairs.get i))
        ∧ (∀ j : Fin wPairs.length, (j : ℕ) < (i : ℕ) →
            strictlyBetter ("mae" == "r2") (fun pr => metricKey "mae" pr.2.2)
              (wPairs.get i) (wPairs.get j)) :=
  ⟨Or.inl rfl, by simp [wPairs],
   ranker_selects_earliest_optimum "mae" wPairs (Or.inl rfl) (by simp [wPairs])⟩

/-! ## C2: the chronological split -/

/-- C2 (claim theorem): for every series and validation fraction in `(0,1)`,
the evaluator splits the combined feature table (one row per timestamp) at row
`⌊n·(1−v)⌋`: the training side is exactly `x.iloc[:s]` (the rows strictly
before `s`), the test side exactly `x.iloc[s:]` (the rows from `s` on), the
two sides concatenate back to the whole table in order (no overlap, no
shuffling), the position `s` depends only on the series length and `v` — so it
is the same for every candidate — and undefined rows are dropped from each
side separately, after the split. -/
theorem evaluator_chronological_split {α : Type} [GridParamsAttrs α]
    (cfg : BestFilterFinder) (variab : Series) (gp : α)
    (gfm : Series → α → Series)
    (hv0 : 0 < cfg.validation_percent) (hv1 : cfg.validation_percent < 1) :
    ((splitIndex variab.length cfg.validation_percent : ℤ)
        = Int.floor ((variab.length : ℚ) * (1 - cfg.validation_percent)))
    ∧ splitIndex variab.length cfg.validation_percent ≤ variab.length
    ∧ (evalFullTable gp variab gfm).length = variab.length
    ∧ evalTrainTable cfg gp variab gfm
        = dropna ((evalFullTable gp variab gfm).take
            (splitIndex variab.length cfg.validation_percent))
    ∧ evalTestTable cfg gp variab gfm
        = dropna ((evalFullTable gp variab gfm).drop
            (splitIndex variab.length cfg.validation_percent))
    ∧ (evalFullTable gp variab gfm).take (splitIndex variab.length cfg.validation_percent)
        ++ (evalFullTable gp variab gfm).drop (splitIndex variab.length cfg.validation_percent)
        = evalFullTable gp variab gfm
    ∧ ((evalFullTable gp variab gfm).take
          (splitIndex variab.length cfg.validation_percent)).length
        = splitIndex variab.length cfg.validation_percent
    ∧ ((evalFullTable gp variab gfm).drop
          (splitIndex variab.length cfg.validation_percent)).length
        = variab.length - splitIndex variab.length cfg.validation_percent := by
  have hnn : (0 : ℚ) ≤ (variab.length : ℚ) * (1 - cfg.validation_percent) :=
    mul_nonneg (by positivity) (by linarith)
  have hfloor : (splitIndex variab.length cfg.validation_percent : ℤ)
      = Int.floor ((variab.length : ℚ) * (1 - cfg.validation_percent)) :=
    Int.toNat_of_nonneg (Int.floor_nonneg.mpr hnn)
  have hle : splitIndex variab.length cfg.validation_percent ≤ variab.length := by
    have hmul : (variab.length : ℚ) * (1 - cfg.validation_percent) ≤ (variab.length : ℚ) :=
      mul_le_of_le_one_right (by positivity) (by linarith)
    have h1 : Int.floor ((variab.length : ℚ) * (1 - cfg.validation_percent))
        ≤ (variab.length : ℤ) := by
      calc Int.floor ((variab.length : ℚ) * (1 - cfg.validation_percent))
          ≤ Int.floor ((variab.length : ℚ)) := Int.floor_le_floor hmul
        _ = (variab.length : ℤ) := Int.floor_natCast _
    exact Int.toNat_le.mpr h1
  have hxlen : (evalFullTable gp variab gfm).length = variab.length := by
    simp [evalFullTable, evalFeatures, withTarget, create_ar_filter_table, create_next_day_price]
  refine ⟨hfloor, hle, hxlen, rfl, rfl, List.take_append_drop _ _, ?_, ?_⟩
  · rw [List.length_take, hxlen]
    omega
  · rw [List.length_drop, hxlen]

/-- C2 (witness): the split of the concrete 4-sample search with `v = 1/2`
(`s = 2`), with both validation-fraction hypotheses discharged. -/
theorem evaluator_chronological_split_witness :
    ((0 : ℚ) < wCfg.validation_percent ∧ wCfg.validation_percent < 1)
    ∧ (((splitIndex wSeries.length wCfg.validation_percent : ℤ)
        = Int.floor ((wSeries.length : ℚ) * (1 - wCfg.validation_percent)))
    ∧ splitIndex wSeries.length wCfg.validation_percent ≤ wSeries.length
    ∧ (evalFullTable wGp wSeries get_moving_average_filter).length = wSeries.length
    ∧ evalTrainTable wCfg wGp wSeries get_moving_average_filter
        = dropna ((evalFullTable wGp wSeries get_moving_average_filter).take
            (splitIndex wSeries.length wCfg.validation_percent))
    ∧ evalTestTable wCfg wGp wSeries get_moving_average_filter
        = dropna ((evalFullTable wGp wSeries get_moving_average_filter).drop
            (splitIndex wSeries.length wCfg.validation_percent))
    ∧ (evalFullTable wGp wSeries get_moving_average_filter).take
          (splitIndex wSeries.length wCfg.validation_percent)
        ++ (evalFullTable wGp wSeries get_moving_average_filter).drop
            (splitIndex wSeries.length wCfg.validation_percent)
        = evalFullTable wGp wSeries get_moving_average_filter
    ∧ ((evalFullTable wGp wSeries get_moving_average_filter).take
          (splitIndex wSeries.length wCfg.validation_percent)).length
        = splitIndex wSeries.length wCfg.validation_percent
    ∧ ((evalFullTable wGp wSeries get_moving_average_filter).drop
          (splitIndex wSeries.length wCfg.validation_percent)).length
        = wSeries.length - splitIndex wSeries.length wCfg.validation_percent) :=
  ⟨⟨by norm_num [wCfg], by norm_num [wCfg]⟩,
   evaluator_chronological_split wCfg wSeries wGp get_moving_average_filter
     (by norm_num [wCfg]) (by norm_num [wCfg])⟩

/-! ## `Except`/`mapM` helpers -/

theorem except_bind_ok {ε γ δ : Type} {e : Except ε γ} {f : γ → Except ε δ} {b : δ}
    (h : (e >>= f) = .ok b) : ∃ a, e = .ok a ∧ f a = .ok b := by
  cases e with
  | error err => simp [Bind.bind, Except.bind] at h
  | ok a => exact ⟨a, rfl, by simpa [Bind.bind, Except.bind] using h⟩

/-- A successful `mapM` over `Except` returns one output per input, the output
at each position being the effect of the input at that position. -/
theorem mapM_ok_spec {γ δ ε : Type} (f : γ → Except ε δ) :
    ∀ (l : List γ) (r : List δ), l.mapM f = .ok r →
      r.length = l.length
      ∧ ∀ i (h1 : i < l.length) (h2 : i < r.length),
          f (l.get ⟨i, h1⟩) = .ok (r.get ⟨i, h2⟩)
  | [], r, h => by
      simp only [List.mapM_nil] at h
      have : r = [] := by simpa [Pure.pure, Except.pure] using h.symm
      subst this
      exact ⟨rfl, fun i h1 _ => absurd h1 (Nat.not_lt_zero _)⟩
  | a :: t, r, h => by
      rw [List.mapM_cons] at h
      obtain ⟨x, hfa, h2⟩ := except_bind_ok h
      obtain ⟨xs, hmt, h3⟩ := except_bind_ok h2
      have hr : r = x :: xs := by simpa [Pure.pure, Except.pure] using h3.symm
      subst hr
      obtain ⟨hlen, hget⟩ := mapM_ok_spec f t xs hmt
      refine ⟨by simpa using hlen, ?_⟩
      intro i h1 h2
      match i with
      | 0 => simpa using hfa
      | i + 1 => simpa using hget i (by simpa using h1) (by simpa using h2)

/-- `mapM` over `Except` surfaces the error of the first failing element
unchanged, as long as the elements before it succeed. -/
theorem mapM_first_error {γ δ ε : Type} (f : γ → Except ε δ) (pre post : List γ)
    (c : γ) (e : ε)
    (hpre : ∀ c' ∈ pre, ∃ r, f c' = .ok r) (hc : f c = .error e) :
    (pre ++ c :: post).mapM f = .error e := by
  induction pre with
  | nil =>
      rw [List.nil_append, List.mapM_cons, hc]
      rfl
  | cons a l ih =>
      obtain ⟨r, hr⟩ := hpre a (by simp)
      rw [List.cons_append, List.mapM_cons, hr]
      have ih' := ih (fun c' h => hpre c' (by simp [h]))
      show (l ++ c :: post).mapM f >>= _ = _
      rw [ih']
      rfl

/-! ## C4: failure propagation -/

/-- C4 (claim theorem): if every candidate before `c` evaluates successfully
and evaluating `c` fails with error `e`, the whole grid search fails with the
very same error `e` — no `GridSearchResult` is produced, no partial
best-of-the-finished result exists, and the error is not wrapped. -/
theorem grid_search_propagates_first_failure {α : Type} [GridParamsAttrs α]
    (impls : EstimatorKind → EstimatorFun) (cfg : BestFilterFinder)
    (pre post : List α) (c : α) (variab : Series) (gfm : Series → α → Series)
    (e : PyError)
    (hpre : ∀ c' ∈ pre, ∃ r, _train_and_evaluate impls cfg c' variab gfm = .ok r)
    (hc : _train_and_evaluate impls cfg c variab gfm = .error e) :
    _grid_search impls cfg (pre ++ c :: post) variab gfm = .error e := by
  unfold _grid_search
  rw [mapM_first_error _ pre post c e hpre hc]

/-- The evaluator fails with the estimator's empty-data error on the empty
series (used to instantiate C4's failure hypothesis concretely). -/
theorem eval_empty_series_fails :
    _train_and_evaluate wImpls wCfg wGp ([] : Series) get_moving_average_filter
      = .error .emptyData := by
  simp [_train_and_evaluate, evalTrainTable, evalTestTable, evalFullTable,
    create_ar_filter_table, create_next_day_price, withTarget, dropna,
    meanEstimator, wImpls]

/-- C4 (witness): a one-candidate search over the empty series fails with the
evaluator's own error, with both hypotheses discharged concretely. -/
theorem grid_search_propagates_first_failure_witness :
    (∀ c' ∈ ([] : List MovingAverageGridParams),
      ∃ r, _train_and_evaluate wImpls wCfg c' ([] : Series) get_moving_average_filter = .ok r)
    ∧ _train_and_evaluate wImpls wCfg wGp ([] : Series) get_moving_average_filter
        = .error .emptyData
    ∧ _grid_search wImpls wCfg ([] ++ wGp :: []) ([] : Series) get_moving_average_filter
        = .error .emptyData :=
  ⟨fun c' h => absurd h (List.not_mem_nil c'),
   eval_empty_series_fails,
   grid_search_propagates_first_failure wImpls wCfg [] [] wGp [] get_moving_average_filter
     .emptyData (fun c' h => absurd h (List.not_mem_nil c')) eval_empty_series_fails⟩

/-! ## C5: unknown model name -/

/-- C5 (claim theorem): a `model_name` outside the six recognized keys never
fails the search: `_load_model` degrades to the default linear estimator, and
the entire grid search computes exactly what it computes under the recognized
key `"LinearRegression"` — indistinguishable at the interface. -/
theorem unknown_model_name_uses_default_linear {α : Type} [GridParamsAttrs α]
    (impls : EstimatorKind → EstimatorFun) (cfg : BestFilterFinder)
    (all_variants : List α) (variab : Series) (gfm : Series → α → Series)
    (hname : cfg.model_name ∉ MODEL_MAPPING_keys) :
    load_model_kind cfg.model_name = .linear
    ∧ _grid_search impls cfg all_variants variab gfm
        = _grid_search impls { cfg with model_name := "LinearRegression" }
            all_variants variab gfm := by
  simp only [ MODEL_MAPPING_keys, List.mem_cons, List.not_mem_nil, or_false,
    not_or] at hname
  obtain ⟨h1, h2, h3, h4, h5, h6⟩ := hname
  have hkind : load_model_kind cfg.model_name = .linear := by
    simp [load_model_kind, MODEL_MAPPING_kind, h1, h2, h3, h4, h5, h6]
  refine ⟨hkind, ?_⟩
  have heval : ∀ gp : α, _train_and_evaluate impls cfg gp variab gfm
      = _train_and_evaluate impls { cfg with model_name := "LinearRegression" }
          gp variab gfm := by
    intro gp
    simp only [_train_and_evaluate, hkind]
    rfl
  unfold _grid_search
  rw [funext heval]
  rfl

/-- C5 (witness): the unrecognized name `"NoSuchModel"` at a concrete
one-candidate search, with the key-membership hypothesis discharged. -/
theorem unknown_model_name_uses_default_linear_witness :
    ("NoSuchModel" ∉ MODEL_MAPPING_keys)
    ∧ (load_model_kind "NoSuchModel" = .linear
    ∧ _grid_search wImpls
        { model_name := "NoSuchModel", metric_name := "mae", validation_percent := 1/2 }
        [wGp] wSeries get_moving_average_filter
      = _grid_search wImpls
          { model_name := "LinearRegression", metric_name := "mae", validation_percent := 1/2 }
          [wGp] wSeries get_moving_average_filter) :=
  ⟨by decide,
   unknown_model_name_uses_default_linear wImpls
     { model_name := "NoSuchModel", metric_name := "mae", validation_percent := 1/2 }
     [wGp] wSeries get_moving_average_filter (by decide)⟩

/-! ## C9: unknown metric name -/

theorem wSeries_filter : get_moving_average_filter wSeries wGp
    = [(0, none), (1, none), (2, none), (3, none)] := by
  simp [get_moving_average_filter, wSeries, wGp, windowMean, List.mapIdx_cons]

theorem wSeries_target : create_next_day_price wSeries
    = [(0, some 2), (1, some 3), (2, some 4), (3, none)] := by
  simp [create_next_day_price, wSeries, List.mapIdx_cons]

theorem wSeries_fullTable : evalFullTable wGp wSeries get_moving_average_filter
    = [(0, [none, some 2]), (1, [some 1, some 3]), (2, [some 2, some 4]),
       (3, [some 3, none])] := by
  rw [evalFullTable, evalFeatures, wSeries_filter, wSeries_target]
  rfl

theorem wSeries_split : splitIndex wSeries.length wCfg.validation_percent = 2 := by
  have h : Int.floor ((wSeries.length : ℚ) * (1 - wCfg.validation_percent)) = 2 := by
    norm_num [wSeries, wCfg]
  rw [splitIndex, h]
  rfl

theorem wSeries_train : evalTrainTable wCfg wGp wSeries get_moving_average_filter
    = [(1, [some 1, some 3])] := by
  rw [evalTrainTable, wSeries_fullTable, wSeries_split]
  rfl

theorem wSeries_test : evalTestTable wCfg wGp wSeries get_moving_average_filter
    = [(2, [some 2, some 4])] := by
  rw [evalTestTable, wSeries_fullTable, wSeries_split]
  rfl

/-- The concrete 4-sample evaluation: train on row 1, predict the training
mean `3` for the single test row, score against the true `4`. -/
theorem wSeries_eval : _train_and_evaluate wImpls wCfg wGp wSeries get_moving_average_filter
    = .ok ([3], ⟨1, 1, 1⟩) := by
  rw [_train_and_evaluate]
  rw [wSeries_train, wSeries_test]
  norm_num [wImpls, meanEstimator, rowFeatures, rowTarget, listMean, get_scores]

/-- The same evaluation under the bad-metric configuration (the evaluator
never reads the metric name). -/
theorem wSeries_eval_badMetric :
    _train_and_evaluate wImpls wCfgBad wGp wSeries get_moving_average_filter
      = .ok ([3], ⟨1, 1, 1⟩) := wSeries_eval

theorem wSeries_mapM : [wGp].mapM
    (fun gp => _train_and_evaluate wImpls wCfg gp wSeries get_moving_average_filter)
    = .ok [([3], ⟨1, 1, 1⟩)] := by
  rw [List.mapM_cons, wSeries_eval]
  rfl

theorem wSeries_rank :
    rankCandidates "mae" [(wGp, (([3] : List ℚ), (⟨1, 1, 1⟩ : FinalMetrics)))]
      = .ok (wGp, ([3], ⟨1, 1, 1⟩)) := rfl

theorem wSeries_yTest : assembledYTest wCfg wSeries = [(2, some 4)] := by
  rw [assembledYTest, wSeries_target, wSeries_split]
  rfl

theorem wSeries_loc :
    locSeries (get_moving_average_filter wSeries wGp) [(2 : ℤ)] = [(2, none)] := by
  rw [wSeries_filter]
  rfl

/-- The full concrete grid search over the single sentinel candidate. -/
theorem wSeries_grid : _grid_search wImpls wCfg [wGp] wSeries get_moving_average_filter
    = .ok wRes := by
  show _grid_search wImpls wCfg [wGp] wSeries get_moving_average_filter
      = Except.ok ⟨[(2, some 4)], [(2, none)], [3], wGp, ⟨1, 1, 1⟩⟩
  rw [_grid_search, wSeries_mapM]
  show (match rankCandidates wCfg.metric_name
      [(wGp, (([3] : List ℚ), (⟨1, 1, 1⟩ : FinalMetrics)))] with
    | Except.error e =>
        (Except.error e : Except PyError (GridSearchResult MovingAverageGridParams))
    | Except.ok best_result => _) = _
  rw [show (wCfg.metric_name) = "mae" from rfl, wSeries_rank]
  show Except.ok _ = _
  rw [wSeries_yTest]
  rw [show (List.map Prod.fst [((2 : ℤ), some (4 : ℚ))]) = [(2 : ℤ)] from rfl, wSeries_loc]

/-! ## The same concrete run ranked by the inherited `_fields` attribute -/

theorem create_next_day_price_length (v : Series) :
    (create_next_day_price v).length = v.length := by
  simp [create_next_day_price]

/-- Every target row before the last is defined (for a fully defined raw
series): it carries the raw value one step ahead. -/
theorem target_prefix_defined (v : Series) (hdef : ∀ e ∈ v, e.2.isSome = true) :
    ∀ e ∈ (create_next_day_price v).take (v.length - 1), e.2.isSome = true := by
  intro e he
  obtain ⟨i, hi, hei⟩ := List.mem_iff_getElem.mp he
  have hlen : (create_next_day_price v).length = v.length := create_next_day_price_length v
  have hi1 : i < v.length - 1 := by
    rw [List.length_take, hlen] at hi
    omega
  have hiv : i < v.length := by omega
  have hgt : (create_next_day_price v).get ⟨i, by omega⟩ =
      (v[i].1, (v.map Prod.snd).getD (i + 1) none) := by
    simp [create_next_day_price, List.mapIdx_eq_enum_map, List.getElem_enum]
  rw [List.get_eq_getElem] at hgt
  rw [List.getElem_take] at hei
  rw [hgt] at hei
  have hgd : (v.map Prod.snd).getD (i + 1) none = v[i + 1].2 := by
    rw [List.getD_eq_getElem _ _ (by simp; omega)]
    simp
  rw [← hei]
  show ((v.map Prod.snd).getD (i + 1) none).isSome = true
  rw [hgd]
  exact hdef _ (List.getElem_mem _)

/-- The final target row is undefined: there is no next-period value. -/
theorem target_suffix_undefined (v : Series) :
    ∀ e ∈ (create_next_day_price v).drop (v.length - 1), e.2.isSome = false := by
  intro e he
  obtain ⟨i, hi, hei⟩ := List.mem_iff_getElem.mp he
  have hlen : (create_next_day_price v).length = v.length := create_next_day_price_length v
  have hi' : v.length - 1 + i < v.length := by
    rw [List.length_drop, hlen] at hi
    omega
  have hgt : (create_next_day_price v).get ⟨v.length - 1 + i, by omega⟩ =
      (v[v.length - 1 + i].1, (v.map Prod.snd).getD (v.length - 1 + i + 1) none) := by
    simp [create_next_day_price, List.mapIdx_eq_enum_map, List.getElem_enum]
  rw [List.get_eq_getElem] at hgt
  rw [List.getElem_drop] at hei
  rw [hgt] at hei
  have hgd : (v.map Prod.snd).getD (v.length - 1 + i + 1) none = none :=
    List.getD_eq_default _ _ (by simp; omega)
  rw [← hei]
  show ((v.map Prod.snd).getD (v.length - 1 + i + 1) none).isSome = false
  rw [hgd]
  rfl

/-- `dropna` keeps exactly the prefix of the target series (all rows except
the final one), for a fully defined raw series. -/
theorem seriesDropna_target (v : Series) (hdef : ∀ e ∈ v, e.2.isSome = true) :
    seriesDropna (create_next_day_price v)
      = (create_next_day_price v).take (v.length - 1) := by
  conv_lhs => rw [seriesDropna,
    show create_next_day_price v
      = (create_next_day_price v).take (v.length - 1)
        ++ (create_next_day_price v).drop (v.length - 1)
      from (List.take_append_drop _ _).symm]
  rw [List.filter_append,
    List.filter_eq_self.mpr (target_prefix_defined v hdef),
    List.filter_eq_nil.mpr (fun a ha => by
      rw [target_suffix_undefined v a ha]; exact Bool.false_ne_true),
    List.append_nil]

/-- Dropping the undefined target rows commutes with the positional test-window
slice, because the only undefined target row is the final one. -/
theorem assembledYTest_eq_slice_dropna (cfg : BestFilterFinder) (variab : Series)
    (hdef : ∀ e ∈ variab, e.2.isSome = true) :
    assembledYTest cfg variab
      = seriesDropna ((create_next_day_price variab).drop
          (splitIndex variab.length cfg.validation_percent)) := by
  have hlen : (create_next_day_price variab).length = variab.length :=
    create_next_day_price_length variab
  rw [assembledYTest, seriesDropna_target variab hdef]
  conv_rhs => rw [seriesDropna,
    show create_next_day_price variab
      = (create_next_day_price variab).take (variab.length - 1)
        ++ (create_next_day_price variab).drop (variab.length - 1)
      from (List.take_append_drop _ _).symm]
  rw [List.drop_append_eq_append_drop, List.filter_append,
    List.filter_eq_self.mpr (fun a ha =>
      target_prefix_defined variab hdef a (List.drop_subset _ _ ha)),
    List.filter_eq_nil.mpr (fun a ha => by
      rw [target_suffix_undefined variab a (List.drop_subset _ _ ha)]
      exact Bool.false_ne_true),
    List.append_nil]

/-- The labels of a `.loc[labels]` selection are exactly the requested
labels. -/
theorem locSeries_labels (s : Series) (L : List ℤ) :
    (locSeries s L).map Prod.fst = L := by
  rw [locSeries, List.map_map]
  exact List.map_id _

/-- Inversion of a successful `_grid_search`: the returned bundle is assembled
from a successful evaluation pass and a successful ranking. -/
theorem grid_search_ok_inv {α : Type} [GridParamsAttrs α]
    (impls : EstimatorKind → EstimatorFun) (cfg : BestFilterFinder)
    (all_variants : List α) (variab : Series) (gfm : Series → α → Series)
    (res : GridSearchResult α)
    (h : _grid_search impls cfg all_variants variab gfm = .ok res) :
    ∃ results best_result,
      all_variants.mapM (fun gp => _train_and_evaluate impls cfg gp variab gfm)
        = .ok results
      ∧ rankCandidates cfg.metric_name (all_variants.zip results) = .ok best_result
      ∧ res = { y_test := assembledYTest cfg variab
              , best_filter := locSeries (gfm variab best_result.1)
                  ((assembledYTest cfg variab).map Prod.fst)
              , best_predict := best_result.2.1
              , best_params := best_result.1
              , best_metrics := best_result.2.2 } := by
  unfold _grid_search at h
  split at h
  · exact absurd h (by simp)
  · rename_i results heq
    split at h
    · exact absurd h (by simp)
    · rename_i best heq2
      refine ⟨results, best, heq, heq2, ?_⟩
      simp only [Except.ok.injEq] at h
      exact h.symm

/-- C6 (claim theorem): in every successfully assembled `GridSearchResult`
(over a fully defined raw series), `y_test` is the next-period target series
restricted to the test window with its undefined rows dropped — hence its
label set is a sublist of the full test-window labels — and `best_filter` is
the winner's recomputed smoothed series selected by `.loc` at exactly
`y_test`'s labels (not at the winner's own dropped-row set), so its labels
coincide with `y_test`'s. -/
theorem assembler_aligns_output {α : Type} [GridParamsAttrs α]
    (impls : EstimatorKind → EstimatorFun) (cfg : BestFilterFinder)
    (all_variants : List α) (variab : Series) (gfm : Series → α → Series)
    (res : GridSearchResult α)
    (hdef : ∀ e ∈ variab, e.2.isSome = true)
    (hok : _grid_search impls cfg all_variants variab gfm = .ok res) :
    res.y_test = seriesDropna ((create_next_day_price variab).drop
        (splitIndex variab.length cfg.validation_percent))
    ∧ (res.y_test.map Prod.fst).Sublist
        (((create_next_day_price variab).drop
          (splitIndex variab.length cfg.validation_percent)).map Prod.fst)
    ∧ res.best_filter = locSeries (gfm variab res.best_params) (res.y_test.map Prod.fst)
    ∧ res.best_filter.map Prod.fst = res.y_test.map Prod.fst := by
  obtain ⟨results, best, hmapM, hrank, hres⟩ :=
    grid_search_ok_inv impls cfg all_variants variab gfm res hok
  subst hres
  have hy : assembledYTest cfg variab
      = seriesDropna ((create_next_day_price variab).drop
          (splitIndex variab.length cfg.validation_percent)) :=
    assembledYTest_eq_slice_dropna cfg variab hdef
  refine ⟨hy, ?_, rfl, locSeries_labels _ _⟩
  rw [hy]
  exact List.Sublist.map _ (List.filter_sublist _)

/-- C6 (witness): the concrete 4-sample search, with both hypotheses
discharged; the returned `y_test` is `[(2, 4)]` and `best_filter` the
recomputed (all-undefined) sentinel smoothing at label `2`. -/
theorem assembler_aligns_output_witness :
    (∀ e ∈ wSeries, e.2.isSome = true)
    ∧ _grid_search wImpls wCfg [wGp] wSeries get_moving_average_filter = .ok wRes
    ∧ (wRes.y_test = seriesDropna ((create_next_day_price wSeries).drop
          (splitIndex wSeries.length wCfg.validation_percent))
      ∧ (wRes.y_test.map Prod.fst).Sublist
          (((create_next_day_price wSeries).drop
            (splitIndex wSeries.length wCfg.validation_percent)).map Prod.fst)
      ∧ wRes.best_filter
          = locSeries (get_moving_average_filter wSeries wRes.best_params)
              (wRes.y_test.map Prod.fst)
      ∧ wRes.best_filter.map Prod.fst = wRes.y_test.map Prod.fst) :=
  ⟨by decide, wSeries_grid,
   assembler_aligns_output wImpls wCfg [wGp] wSeries get_moving_average_filter wRes
     (by decide) wSeries_grid⟩

/-! ## C10: prediction/target alignment -/

theorem mem_sortedInsert {β : Type} (m : Bool) (key : β → ℚ) (a x : β) (l : List β)
    (hx : x ∈ sortedInsert m key a l) : x = a ∨ x ∈ l := by
  induction l with
  | nil => simpa [sortedInsert] using hx
  | cons b bs ih =>
      unfold sortedInsert at hx
      by_cases hc : (if m then key a ≤ key b else key b ≤ key a)
      · rw [if_pos hc] at hx
        rcases List.mem_cons.mp hx with rfl | hx'
        · exact Or.inr (List.mem_cons_self _ _)
        · rcases ih hx' with rfl | h
          · exact Or.inl rfl
          · exact Or.inr (List.mem_cons_of_mem _ h)
      · rw [if_neg hc] at hx
        rcases List.mem_cons.mp hx with rfl | hx'
        · exact Or.inl rfl
        · exact Or.inr hx'

theorem mem_pySorted_aux {β : Type} (m : Bool) (key : β → ℚ) (x : β) :
    ∀ (l acc : List β),
      x ∈ List.foldl (fun acc y => sortedInsert m key y acc) acc l →
        x ∈ acc ∨ x ∈ l
  | [], acc, hx => Or.inl hx
  | a :: t, acc, hx => by
      rcases mem_pySorted_aux m key x t (sortedInsert m key a acc) hx with h | h
      · rcases mem_sortedInsert m key a x acc h with rfl | h'
        · exact Or.inr (List.mem_cons_self _ _)
        · exact Or.inl h'
      · exact Or.inr (List.mem_cons_of_mem _ h)

theorem mem_pySorted {β : Type} (m : Bool) (key : β → ℚ) (x : β) (l : List β)
    (hx : x ∈ pySorted m key l) : x ∈ l := by
  rcases mem_pySorted_aux m key x l [] hx with h | h
  · exact absurd h (List.not_mem_nil x)
  · exact h

/-- The ranking step only ever returns one of its input pairs. -/
theorem rankCandidates_mem {α : Type} (metric_name : String)
    (pairs : List (α × List ℚ × FinalMetrics)) (b : α × List ℚ × FinalMetrics)
    (h : rankCandidates metric_name pairs = .ok b) : b ∈ pairs := by
  unfold rankCandidates at h
  split at h
  · exact absurd h (by simp)
  · split at h
    · exact absurd h (by simp)
    · split at h
      · exact absurd h (by simp)
      · rename_i best hhead
        simp only [Except.ok.injEq] at h
        subst h
        exact mem_pySorted _ _ _ _ (List.mem_of_mem_head? hhead)
    · simp only [Except.ok.injEq] at h
      subst h
      exact List.mem_cons_self _ _
    · split at h
      · simp only [Except.ok.injEq] at h
        subst h
        exact List.mem_cons_self _ _
      · exact absurd h (by simp)

theorem get_scores_ok_inv (a b : List ℚ) (m : FinalMetrics)
    (h : get_scores a b = .ok m) : a.length = b.length ∧ a.length ≠ 0 := by
  unfold get_scores at h
  split at h
  · assumption
  · exact absurd h (by simp)

/-- Inversion of a successful evaluation: the predictions come from the
estimator on the dropped test features, and the scored test targets are
nonempty and aligned with them. -/
theorem train_and_evaluate_ok_inv {α : Type} [GridParamsAttrs α]
    (impls : EstimatorKind → EstimatorFun) (cfg : BestFilterFinder) (gp : α)
    (variab : Series) (gfm : Series → α → Series) (y : List ℚ) (m : FinalMetrics)
    (h : _train_and_evaluate impls cfg gp variab gfm = .ok (y, m)) :
    impls (load_model_kind cfg.model_name)
        ((evalTrainTable cfg gp variab gfm).map rowFeatures)
        ((evalTrainTable cfg gp variab gfm).map rowTarget)
        ((evalTestTable cfg gp variab gfm).map rowFeatures) = .ok y
    ∧ (evalTestTable cfg gp variab gfm).length = y.length
    ∧ (evalTestTable cfg gp variab gfm).length ≠ 0 := by
  unfold _train_and_evaluate at h
  dsimp only at h
  split at h
  · exact absurd h (by simp)
  · rename_i y' himp
    split at h
    · exact absurd h (by simp)
    · rename_i m' hsc
      simp only [Except.ok.injEq, Prod.mk.injEq] at h
      obtain ⟨hy, hm⟩ := h
      subst hy
      obtain ⟨hlen, hne⟩ := get_scores_ok_inv _ _ _ hsc
      rw [List.length_map] at hlen hne
      exact ⟨himp, hlen, hne⟩

/-- The winning pair of a successful grid search is the evaluation of the
winning candidate: `best_predict`/`best_metrics` are exactly what
`_train_and_evaluate` returns on `best_params`. -/
theorem grid_search_winner_eval {α : Type} [GridParamsAttrs α]
    (impls : EstimatorKind → EstimatorFun) (cfg : BestFilterFinder)
    (all_variants : List α) (variab : Series) (gfm : Series → α → Series)
    (res : GridSearchResult α)
    (hok : _grid_search impls cfg all_variants variab gfm = .ok res) :
    _train_and_evaluate impls cfg res.best_params variab gfm
      = .ok (res.best_predict, res.best_metrics) := by
  obtain ⟨results, best, hmapM, hrank, hres⟩ :=
    grid_search_ok_inv impls cfg all_variants variab gfm res hok
  have hmem := rankCandidates_mem _ _ _ hrank
  obtain ⟨i, hi, hbe⟩ := List.mem_iff_getElem.mp hmem
  obtain ⟨hlen, hget⟩ := mapM_ok_spec
    (fun gp => _train_and_evaluate impls cfg gp variab gfm) all_variants results hmapM
  have hi1 : i < all_variants.length := by
    rw [List.length_zip] at hi
    omega
  have hi2 : i < results.length := by
    rw [List.length_zip] at hi
    omega
  have hzi : (all_variants.zip results)[i] = (all_variants[i], results[i]) :=
    List.getElem_zip
  have hbest : best = (all_variants[i], results[i]) := by rw [← hbe, hzi]
  have heval := hget i hi1 hi2
  simp only [List.get_eq_getElem] at heval
  subst hres
  simp only [hbest]
  simpa using heval

theorem withTarget_length (x : Table) (t : Series) :
    (withTarget x t).length = min x.length t.length := by
  simp [withTarget]

theorem withTarget_getElem (x : Table) (t : Series) (i : ℕ)
    (h1 : i < x.length) (h2 : i < t.length)
    (h : i < (withTarget x t).length) :
    (withTarget x t)[i] = (x[i].1, x[i].2 ++ [t[i].2]) := by
  simp [withTarget, List.getElem_zip]

theorem rowDefined_append (lbl : ℤ) (cells : List Val) (v : Val) :
    rowDefined (lbl, cells ++ [v]) = (rowDefined (lbl, cells) && v.isSome) := by
  simp [rowDefined, List.all_append]

theorem target_isSome_of_lt (v : Series) (hdef : ∀ e ∈ v, e.2.isSome = true)
    (i : ℕ) (h : i < (create_next_day_price v).length) (h1 : i + 1 < v.length) :
    ((create_next_day_price v)[i]).2.isSome = true := by
  have hi : i < v.length := by rw [create_next_day_price_length] at h; exact h
  have hgt : (create_next_day_price v)[i]
      = (v[i].1, (v.map Prod.snd).getD (i + 1) none) := by
    simp [create_next_day_price, List.mapIdx_eq_enum_map, List.getElem_enum]
  rw [hgt]
  show ((v.map Prod.snd).getD (i + 1) none).isSome = true
  rw [List.getD_eq_getElem _ _ (by simp [h1])]
  simp only [List.getElem_map]
  exact hdef _ (List.getElem_mem _)

theorem target_isSome_false_of_last (v : Series) (i : ℕ)
    (h : i < (create_next_day_price v).length) (h1 : v.length ≤ i + 1) :
    ((create_next_day_price v)[i]).2.isSome = false := by
  have hi : i < v.length := by rw [create_next_day_price_length] at h; exact h
  have hgt : (create_next_day_price v)[i]
      = (v[i].1, (v.map Prod.snd).getD (i + 1) none) := by
    simp [create_next_day_price, List.mapIdx_eq_enum_map, List.getElem_enum]
  rw [hgt]
  show ((v.map Prod.snd).getD (i + 1) none).isSome = false
  rw [List.getD_eq_default _ _ (by simp [h1])]
  rfl

theorem withTarget_rowDefined (variab : Series) (F : Table)
    (hF : F.length = variab.length) (i : ℕ)
    (hx : i < (withTarget F (create_next_day_price variab)).length)
    (hiF : i < F.length) (hit : i < (create_next_day_price variab).length) :
    rowDefined ((withTarget F (create_next_day_price variab))[i])
      = (rowDefined F[i] && ((create_next_day_price variab)[i]).2.isSome) := by
  rw [withTarget_getElem _ _ i hiF hit hx, rowDefined_append]

theorem withTarget_target_length (variab : Series) (F : Table)
    (hF : F.length = variab.length) :
    (withTarget F (create_next_day_price variab)).length = variab.length := by
  rw [withTarget_length, hF, create_next_day_price_length]
  omega

/-- Every test row at or beyond position `n − 1` is dropped: its target cell is
undefined. -/
theorem test_suffix_rows_undefined (variab : Series) (F : Table)
    (hF : F.length = variab.length) (s : ℕ) :
    ∀ b ∈ ((withTarget F (create_next_day_price variab)).drop s).drop
        (variab.length - 1 - s), rowDefined b = false := by
  intro b hb
  have hxlen := withTarget_target_length variab F hF
  obtain ⟨j, hj, hbe⟩ := List.mem_iff_getElem.mp hb
  rw [List.getElem_drop, List.getElem_drop] at hbe
  have hjlt : s + (variab.length - 1 - s + j) < variab.length := by
    rw [List.length_drop, List.length_drop, hxlen] at hj
    omega
  have hxb : s + (variab.length - 1 - s + j)
      < (withTarget F (create_next_day_price variab)).length := by omega
  have hiF : s + (variab.length - 1 - s + j) < F.length := by omega
  have hit : s + (variab.length - 1 - s + j) < (create_next_day_price variab).length := by
    rw [create_next_day_price_length]
    omega
  rw [← hbe, withTarget_rowDefined variab F hF _ hxb hiF hit,
    target_isSome_false_of_last variab _ hit (by omega)]
  simp

/-- When every feature-undefined row lies strictly before the split, every test
row before position `n − 1` survives `dropna`. -/
theorem test_prefix_rows_defined (variab : Series) (F : Table)
    (hdef : ∀ e ∈ variab, e.2.isSome = true)
    (hF : F.length = variab.length) (s : ℕ)
    (hall : ∀ i (hi : i < F.length), rowDefined (F.get ⟨i, hi⟩) = false → i < s) :
    ∀ b ∈ ((withTarget F (create_next_day_price variab)).drop s).take
        (variab.length - 1 - s), rowDefined b = true := by
  intro b hb
  have hxlen := withTarget_target_length variab F hF
  obtain ⟨j, hj, hbe⟩ := List.mem_iff_getElem.mp hb
  rw [List.getElem_take, List.getElem_drop] at hbe
  have hjb : j < variab.length - 1 - s := by
    rw [List.length_take, List.length_drop, hxlen] at hj
    omega
  have hidxn : s + j < variab.length := by omega
  have hxb : s + j < (withTarget F (create_next_day_price variab)).length := by omega
  have hiF : s + j < F.length := by omega
  have hit : s + j < (create_next_day_price variab).length := by
    rw [create_next_day_price_length]
    omega
  rw [← hbe, withTarget_rowDefined variab F hF _ hxb hiF hit,
    target_isSome_of_lt variab hdef _ hit (by omega), Bool.and_true]
  by_contra hcon
  have hfalse : rowDefined F[s + j] = false := by
    revert hcon
    cases rowDefined F[s + j] <;> simp
  have := hall (s + j) hiF (by simpa [List.get_eq_getElem] using hfalse)
  omega

/-- Cutting the test table at position `n − 1` loses no surviving row. -/
theorem dropna_test_eq (variab : Series) (F : Table)
    (hF : F.length = variab.length) (s : ℕ) :
    dropna ((withTarget F (create_next_day_price variab)).drop s)
      = dropna (((withTarget F (create_next_day_price variab)).drop s).take
          (variab.length - 1 - s)) := by
  conv_lhs => rw [show (withTarget F (create_next_day_price variab)).drop s
      = ((withTarget F (create_next_day_price variab)).drop s).take
          (variab.length - 1 - s)
        ++ ((withTarget F (create_next_day_price variab)).drop s).drop
            (variab.length - 1 - s)
      from (List.take_append_drop _ _).symm]
  rw [dropna, List.filter_append,
    show List.filter rowDefined
        (((withTarget F (create_next_day_price variab)).drop s).drop
          (variab.length - 1 - s)) = []
      from List.filter_eq_nil.mpr (fun b hb => by
        rw [test_suffix_rows_undefined variab F hF s b hb]
        exact Bool.false_ne_true),
    List.append_nil]
  rfl

/-- The dropped test-table size when all undefined feature rows lie strictly
before the split: one surviving row per test position except the last. -/
theorem dropna_test_length_eq (variab : Series) (F : Table)
    (hdef : ∀ e ∈ variab, e.2.isSome = true)
    (hF : F.length = variab.length) (s : ℕ)
    (hall : ∀ i (hi : i < F.length), rowDefined (F.get ⟨i, hi⟩) = false → i < s) :
    (dropna ((withTarget F (create_next_day_price variab)).drop s)).length
      = variab.length - 1 - s := by
  rw [dropna_test_eq variab F hF s, dropna,
    List.filter_eq_self.mpr (test_prefix_rows_defined variab F hdef hF s hall),
    List.length_take, List.length_drop, withTarget_target_length variab F hF]
  omega

/-- The dropped test-table size when the undefined feature rows form a prefix
that reaches into the test window: strictly smaller than the assembler's
held-out target. -/
theorem dropna_test_length_lt (variab : Series) (F : Table)
    (hF : F.length = variab.length) (s : ℕ)
    (hpfx : ∀ i j (hi : i < F.length) (hj : j < F.length), i ≤ j →
        rowDefined (F.get ⟨j, hj⟩) = false → rowDefined (F.get ⟨i, hi⟩) = false)
    (i₀ : ℕ) (hi₀ : i₀ < F.length) (hsi₀ : s ≤ i₀)
    (hundef : rowDefined (F.get ⟨i₀, hi₀⟩) = false)
    (hne : dropna ((withTarget F (create_next_day_price variab)).drop s) ≠ []) :
    (dropna ((withTarget F (create_next_day_price variab)).drop s)).length
      < variab.length - 1 - s := by
  have hxlen := withTarget_target_length variab F hF
  rw [dropna_test_eq variab F hF s] at hne ⊢
  obtain ⟨b, hbmem⟩ := List.exists_mem_of_ne_nil _ hne
  have hbf := List.mem_filter.mp hbmem
  obtain ⟨j, hj, hbe⟩ := List.mem_iff_getElem.mp hbf.1
  rw [List.getElem_take, List.getElem_drop] at hbe
  have hjb : j < variab.length - 1 - s := by
    rw [List.length_take, List.length_drop, hxlen] at hj
    omega
  have hxb : s + j < (withTarget F (create_next_day_price variab)).length := by omega
  have hiFj : s + j < F.length := by omega
  have hit : s + j < (create_next_day_price variab).length := by
    rw [create_next_day_price_length]
    omega
  have hrow : rowDefined ((withTarget F (create_next_day_price variab))[s + j])
      = true := by
    rw [hbe]
    exact hbf.2
  rw [withTarget_rowDefined variab F hF _ hxb hiFj hit] at hrow
  have hfd : rowDefined F[s + j] = true := (Bool.and_eq_true _ _).mp hrow |>.1
  have hi₀lt : i₀ < variab.length - 1 := by
    by_contra hge
    push_neg at hge
    have hle : s + j ≤ i₀ := by omega
    have := hpfx (s + j) i₀ hiFj hi₀ hle hundef
    rw [List.get_eq_getElem] at this
    rw [this] at hfd
    exact Bool.false_ne_true hfd
  have hAlen : (((withTarget F (create_next_day_price variab)).drop s).take
      (variab.length - 1 - s)).length = variab.length - 1 - s := by
    rw [List.length_take, List.length_drop, hxlen]
    omega
  rw [dropna]
  have hi₀pos : i₀ - s < (((withTarget F (create_next_day_price variab)).drop s).take
      (variab.length - 1 - s)).length := by omega
  have hmemA := List.getElem_mem hi₀pos
  have hit₀ : i₀ < (create_next_day_price variab).length := by
    rw [create_next_day_price_length]
    omega
  have hx₀ : i₀ < (withTarget F (create_next_day_price variab)).length := by omega
  have hF₀ : rowDefined F[i₀] = false := by
    simpa [List.get_eq_getElem] using hundef
  have hnotp : ¬ (rowDefined ((((withTarget F (create_next_day_price variab)).drop s).take
      (variab.length - 1 - s))[i₀ - s]) = true) := by
    rw [List.getElem_take, List.getElem_drop]
    simp only [show s + (i₀ - s) = i₀ from by omega]
    rw [withTarget_rowDefined variab F hF i₀ hx₀ (by omega) hit₀, hF₀]
    simp
  calc (List.filter rowDefined (((withTarget F (create_next_day_price variab)).drop s).take
        (variab.length - 1 - s))).length
      < (((withTarget F (create_next_day_price variab)).drop s).take
          (variab.length - 1 - s)).length :=
        List.length_filter_lt_length_iff_exists.mpr ⟨_, hmemA, hnotp⟩
    _ = variab.length - 1 - s := hAlen

theorem assembledYTest_length (cfg : BestFilterFinder) (variab : Series)
    (hdef : ∀ e ∈ variab, e.2.isSome = true) :
    (assembledYTest cfg variab).length
      = variab.length - 1 - splitIndex variab.length cfg.validation_percent := by
  rw [assembledYTest, seriesDropna_target variab hdef, List.length_drop,
    List.length_take, create_next_day_price_length]
  omega

theorem evalFeatures_length {α : Type} [GridParamsAttrs α] (gp : α) (variab : Series)
    (gfm : Series → α → Series) :
    (evalFeatures gp variab gfm).length = variab.length := by
  simp [evalFeatures, create_ar_filter_table]

/-- C10 (claim theorem): in a successful search (fully defined raw series,
estimators that return one prediction per test row), consider the winner's
lag-feature table.  (1) If every row with an undefined feature cell lies
strictly before the split position, the returned `best_predict` has exactly
one entry per row of the returned `y_test`.  (2) If the undefined feature rows
form a prefix (as the filter warm-ups do) and at least one of them falls
inside the test window, the evaluator drops it while the assembler's `y_test`
keeps it, so `best_predict` is strictly shorter than `y_test`. -/
theorem best_predict_aligns_with_y_test {α : Type} [GridParamsAttrs α]
    (impls : EstimatorKind → EstimatorFun) (cfg : BestFilterFinder)
    (all_variants : List α) (variab : Series) (gfm : Series → α → Series)
    (res : GridSearchResult α)
    (hilen : ∀ k xtr ytr xte ys, impls k xtr ytr xte = .ok ys → ys.length = xte.length)
    (hdef : ∀ e ∈ variab, e.2.isSome = true)
    (hok : _grid_search impls cfg all_variants variab gfm = .ok res) :
    ((∀ i (hi : i < (evalFeatures res.best_params variab gfm).length),
        rowDefined ((evalFeatures res.best_params variab gfm).get ⟨i, hi⟩) = false →
          i < splitIndex variab.length cfg.validation_percent) →
      res.best_predict.length = res.y_test.length)
    ∧ ((∀ i j (hi : i < (evalFeatures res.best_params variab gfm).length)
          (hj : j < (evalFeatures res.best_params variab gfm).length), i ≤ j →
          rowDefined ((evalFeatures res.best_params variab gfm).get ⟨j, hj⟩) = false →
          rowDefined ((evalFeatures res.best_params variab gfm).get ⟨i, hi⟩) = false) →
      (∃ i, ∃ hi : i < (evalFeatures res.best_params variab gfm).length,
          splitIndex variab.length cfg.validation_percent ≤ i
          ∧ rowDefined ((evalFeatures res.best_params variab gfm).get ⟨i, hi⟩) = false) →
      res.best_predict.length < res.y_test.length) := by
  have hwin := grid_search_winner_eval impls cfg all_variants variab gfm res hok
  obtain ⟨himp, hteq, htne⟩ :=
    train_and_evaluate_ok_inv impls cfg res.best_params variab gfm _ _ hwin
  have hplen : res.best_predict.length
      = (evalTestTable cfg res.best_params variab gfm).length := by
    have h := hilen _ _ _ _ _ himp
    rw [h, List.length_map]
  obtain ⟨results, best, hmapM, hrank, hres⟩ :=
    grid_search_ok_inv impls cfg all_variants variab gfm res hok
  have hyt : res.y_test = assembledYTest cfg variab := by rw [hres]
  have hylen : res.y_test.length
      = variab.length - 1 - splitIndex variab.length cfg.validation_percent := by
    rw [hyt, assembledYTest_length cfg variab hdef]
  have hFlen : (evalFeatures res.best_params variab gfm).length = variab.length :=
    evalFeatures_length res.best_params variab gfm
  have htestdef : evalTestTable cfg res.best_params variab gfm
      = dropna ((withTarget (evalFeatures res.best_params variab gfm)
          (create_next_day_price variab)).drop
            (splitIndex variab.length cfg.validation_percent)) := rfl
  constructor
  · intro hall
    rw [hplen, htestdef,
      dropna_test_length_eq variab _ hdef hFlen
        (splitIndex variab.length cfg.validation_percent) hall, hylen]
  · intro hpfx hex
    obtain ⟨i₀, hi₀, hsi₀, hundef⟩ := hex
    have hne : dropna ((withTarget (evalFeatures res.best_params variab gfm)
        (create_next_day_price variab)).drop
          (splitIndex variab.length cfg.validation_percent)) ≠ [] := by
      rw [← htestdef]
      intro h0
      apply htne
      rw [h0]
      rfl
    rw [hplen, htestdef, hylen]
    exact dropna_test_length_lt variab _ hFlen
      (splitIndex variab.length cfg.validation_percent) hpfx i₀ hi₀ hsi₀ hundef hne

/-- The witness estimator returns one prediction per test row. -/
theorem wImpls_length (k : EstimatorKind) (xtr : List (List ℚ)) (ytr : List ℚ)
    (xte : List (List ℚ)) (ys : List ℚ) (h : wImpls k xtr ytr xte = .ok ys) :
    ys.length = xte.length := by
  unfold wImpls meanEstimator at h
  split at h
  · exact absurd h (by simp)
  · simp only [Except.ok.injEq] at h
    rw [← h, List.length_map]

/-- C10 (witness): the concrete 4-sample search — the sentinel's only
feature-undefined row is row 0, strictly before the split at 2 — with all
three hypotheses discharged; the conclusion is the instantiated alignment
statement. -/
theorem best_predict_aligns_with_y_test_witness :
    ((∀ k xtr ytr xte ys, wImpls k xtr ytr xte = .ok ys → ys.length = xte.length)
    ∧ (∀ e ∈ wSeries, e.2.isSome = true)
    ∧ _grid_search wImpls wCfg [wGp] wSeries get_moving_average_filter = .ok wRes)
    ∧ (((∀ i (hi : i < (evalFeatures wRes.best_params wSeries get_moving_average_filter).length),
        rowDefined ((evalFeatures wRes.best_params wSeries get_moving_average_filter).get
          ⟨i, hi⟩) = false →
          i < splitIndex wSeries.length wCfg.validation_percent) →
      wRes.best_predict.length = wRes.y_test.length)
    ∧ ((∀ i j (hi : i < (evalFeatures wRes.best_params wSeries get_moving_average_filter).length)
          (hj : j < (evalFeatures wRes.best_params wSeries get_moving_average_filter).length),
          i ≤ j →
          rowDefined ((evalFeatures wRes.best_params wSeries get_moving_average_filter).get
            ⟨j, hj⟩) = false →
          rowDefined ((evalFeatures wRes.best_params wSeries get_moving_average_filter).get
            ⟨i, hi⟩) = false) →
      (∃ i, ∃ hi : i < (evalFeatures wRes.best_params wSeries get_moving_average_filter).length,
          splitIndex wSeries.length wCfg.validation_percent ≤ i
          ∧ rowDefined ((evalFeatures wRes.best_params wSeries get_moving_average_filter).get
              ⟨i, hi⟩) = false) →
      wRes.best_predict.length < wRes.y_test.length)) :=
  ⟨⟨wImpls_length, by decide, wSeries_grid⟩,
   best_predict_aligns_with_y_test wImpls wCfg [wGp] wSeries get_moving_average_filter
     wRes wImpls_length (by decide) wSeries_grid⟩

end SMPR
